import Mathlib

/-!
Verification development for the universal text-expansion pipeline
(`server/services/universalExpansion.ts`).

The TypeScript source is shallowly embedded: pure fragments become Lean
functions, the stateful parse cache becomes explicit state passing, the
external generation provider becomes an oracle parameter, and JS numbers
are modelled as `Int`/`Nat` (all quantities involved are integers in the
source; where the source multiplies by a decimal literal such as `0.95`
or `0.015`, the comparison or rounding is modelled exactly over the
rationals, e.g. `wc < 0.95 * t` becomes `20 * wc < 19 * t`).
-/

namespace UX

/-! ### Section generation continuation loop (`generateSection`, lines 727-991)

The provider is an oracle: call number `i` yields a chunk with a word
count and a `stop_reason`.  `truncated` models `stop_reason ===
'max_tokens'`.  Appending a chunk with `'\n\n'` and recounting
`accumulatedContent.trim().split(/\s+/).filter(w => w).length` adds
exactly the chunk's own nonempty-word count, so the accumulated word
count is modelled additively. -/

structure GenChunk where
  words : Nat
  truncated : Bool
deriving DecidableEq

/-- One state of the continuation loop: `(currentWordCount, continuationAttempts)`. -/
structure GenState where
  wordCount : Nat
  attempts : Nat
deriving DecidableEq

/-- The `while (currentWordCount < targetWordCount * 0.95 && continuationAttempts <
maxContinuationAttempts)` loop of `generateSection`.  `fuel` is the number of
attempts still allowed (`maxContinuationAttempts - continuationAttempts`); the
loop body appends the provider chunk and increments the attempt counter.  The
`stop_reason === 'max_tokens'` flag of a chunk is received (line 946) but, as in
the source, does not appear in the loop condition (line 736): it only gates a
log line and the inter-iteration delay (lines 973-982), neither of which
changes the loop state. -/
def genLoop (target : Nat) (provider : Nat → GenChunk) : Nat → GenState → GenState
  | 0, st => st
  | fuel + 1, st =>
    if 20 * st.wordCount < 19 * target then
      genLoop target provider fuel
        { wordCount := st.wordCount + (provider st.attempts).words,
          attempts := st.attempts + 1 }
    else st

/-- `generateSection`'s word-count enforcement loop, started with empty
accumulated content, zero attempts, and the attempt ceiling
`maxContinuationAttempts = 20` (line 731). -/
def generateSectionLoop (target : Nat) (provider : Nat → GenChunk) : GenState :=
  genLoop target provider 20 { wordCount := 0, attempts := 0 }

lemma genLoop_invariant (target : Nat) (provider : Nat → GenChunk) :
    ∀ fuel st, st.attempts + fuel = 20 →
      (genLoop target provider fuel st).attempts ≤ 20 ∧
      (19 * target ≤ 20 * (genLoop target provider fuel st).wordCount ∨
        (genLoop target provider fuel st).attempts = 20) := by
  intro fuel
  induction fuel with
  | zero =>
    intro st h
    simp [genLoop]
    omega
  | succ n ih =>
    intro st h
    rw [genLoop]
    by_cases hc : 20 * st.wordCount < 19 * target
    · rw [if_pos hc]
      exact ih _ (by show st.attempts + 1 + n = 20; omega)
    · rw [if_neg hc]
      exact ⟨by omega, Or.inl (by omega)⟩

/-- C1: For every section target `T` and every provider behaviour, the
continuation loop of `generateSection` terminates after at most 20 attempts,
and on exit the accumulated word count is at least `0.95 × T` (modelled
exactly as `19 * T ≤ 20 * wordCount`) or all 20 attempts were used; the
under-length result is still returned (the function is total and yields a
state, never an error). -/
theorem generateSection_terminates_bounded (target : Nat) (provider : Nat → GenChunk) :
    (generateSectionLoop target provider).attempts ≤ 20 ∧
    (19 * target ≤ 20 * (generateSectionLoop target provider).wordCount ∨
      (generateSectionLoop target provider).attempts = 20) :=
  genLoop_invariant target provider 20 { wordCount := 0, attempts := 0 } rfl

/-- A provider whose very first chunk carries 1000 words and was cut off by the
length limit (`stop_reason === 'max_tokens'`). -/
def truncatedProvider : Nat → GenChunk := fun _ => { words := 1000, truncated := true }

/-- C2: the code accepts a truncated response as final.  With target 1000, the
first provider chunk delivers 1000 words but signals `max_tokens`; the claim
(and the source's own comments at lines 945 and 973-974) require at least one
more iteration, yet the loop exits after exactly one attempt because the loop
condition (line 736) never consults the truncation flag. -/
theorem truncated_response_not_continued :
    generateSectionLoop 1000 truncatedProvider = { wordCount := 1000, attempts := 1 } ∧
    (truncatedProvider 0).truncated = true := by
  constructor
  · decide
  · rfl

/-! ### Structure synthesis and word-budget distribution (`universalExpand`, lines 1246-1311)

Word counts are JS numbers holding integers; they are modelled as `Int`.
`Math.round(x)` for the rational `p / q` (`q > 0`) is `⌊p / q + 1 / 2⌋ =
⌊(2p + q) / (2q)⌋`; `/` below is `Int` floor division, which matches
`Math.round` exactly (JS `Math.round` rounds halves toward `+∞`).  The
source multiplies by decimal literals (`targetWordCount * 0.015` etc.);
binary floating point can in principle round such a product differently
from exact rational arithmetic at adversarial magnitudes, but every
theorem below is either independent of the individual rounded values or
evaluated at small concrete inputs where the double-precision result
coincides with the rational one. -/

structure SectionSpec where
  name : String
  wordCount : Int
deriving DecidableEq

/-- `Math.round(p / q)` for a positive divisor `q`. -/
def jsRoundDiv (p q : Int) : Int := (2 * p + q) / (2 * q)

/-- Total of the word-count allocations of a structure table. -/
def sumCounts (plan : List SectionSpec) : Int := (plan.map (·.wordCount)).sum

/-- The synthesized large-target structure table (lines 1250-1285, taken when
`targetWordCount >= 50000`): fixed 1%/5%/4% allocations for
Abstract/Introduction/Conclusion, the remaining budget split over 12 body
sections with the final body section (`CHAPTER 9`) absorbing the rounding
remainder (`lastBodySectionWords = remainingWords - bodyTotal`). -/
def largeTargetStructure (t : Int) : List SectionSpec :=
  let abstractWords := jsRoundDiv (t * 1) 100
  let introWords := jsRoundDiv (t * 5) 100
  let conclusionWords := jsRoundDiv (t * 4) 100
  let fixedTotal := abstractWords + introWords + conclusionWords
  let remainingWords := t - fixedTotal
  let bodySectionCount : Int := 12
  let wordsPerSection := jsRoundDiv remainingWords bodySectionCount
  let bodyTotal := wordsPerSection * (bodySectionCount - 1)
  let lastBodySectionWords := remainingWords - bodyTotal
  [ { name := "ABSTRACT", wordCount := abstractWords },
    { name := "INTRODUCTION", wordCount := introWords },
    { name := "LITERATURE REVIEW PART 1: HISTORICAL CONTEXT", wordCount := wordsPerSection },
    { name := "LITERATURE REVIEW PART 2: CONTEMPORARY PERSPECTIVES", wordCount := wordsPerSection },
    { name := "LITERATURE REVIEW PART 3: CRITICAL ANALYSIS", wordCount := wordsPerSection },
    { name := "CHAPTER 1: FOUNDATIONAL CONCEPTS", wordCount := wordsPerSection },
    { name := "CHAPTER 2: THEORETICAL FRAMEWORK", wordCount := wordsPerSection },
    { name := "CHAPTER 3: CORE ARGUMENT DEVELOPMENT", wordCount := wordsPerSection },
    { name := "CHAPTER 4: EVIDENCE AND ANALYSIS", wordCount := wordsPerSection },
    { name := "CHAPTER 5: COUNTERARGUMENTS AND RESPONSES", wordCount := wordsPerSection },
    { name := "CHAPTER 6: CASE STUDIES", wordCount := wordsPerSection },
    { name := "CHAPTER 7: METHODOLOGICAL CONSIDERATIONS", wordCount := wordsPerSection },
    { name := "CHAPTER 8: BROADER IMPLICATIONS", wordCount := wordsPerSection },
    { name := "CHAPTER 9: FUTURE DIRECTIONS", wordCount := lastBodySectionWords },
    { name := "CONCLUSION", wordCount := conclusionWords } ]

/-- The synthesized standard structure table (lines 1288-1297, taken when
`targetWordCount < 50000`): eight sections with fixed percentages
1.5/10/20/17.5/17.5/17.5/10/6, each independently rounded. -/
def standardStructure (t : Int) : List SectionSpec :=
  [ { name := "ABSTRACT", wordCount := jsRoundDiv (t * 15) 1000 },
    { name := "INTRODUCTION", wordCount := jsRoundDiv (t * 10) 100 },
    { name := "LITERATURE REVIEW", wordCount := jsRoundDiv (t * 20) 100 },
    { name := "CHAPTER 1: CORE ARGUMENT", wordCount := jsRoundDiv (t * 175) 1000 },
    { name := "CHAPTER 2: SUPPORTING ANALYSIS", wordCount := jsRoundDiv (t * 175) 1000 },
    { name := "CHAPTER 3: CRITICAL EXAMINATION", wordCount := jsRoundDiv (t * 175) 1000 },
    { name := "CHAPTER 4: IMPLICATIONS", wordCount := jsRoundDiv (t * 10) 100 },
    { name := "CONCLUSION", wordCount := jsRoundDiv (t * 6) 100 } ]

/-- Number of sections of a user-specified structure without an explicit word
count (`structure.filter(s => s.wordCount === 0)`, line 1303). -/
def zeroCount (plan : List SectionSpec) : Nat :=
  (plan.filter (fun s => s.wordCount == 0)).length

/-- The even distribution of the remaining budget over zero-count sections
(lines 1300-1310): when at least one section has count 0 and the target
exceeds the explicit total, each zero-count section is set to
`Math.round(remaining / k)`; otherwise the structure is left unchanged.
In the source this step mutates the section objects of `parsed.structure`
in place; here it returns the updated list (the aliasing consequences are
modelled separately with the parse cache). -/
def distributeStructure (target : Int) (plan : List SectionSpec) : List SectionSpec :=
  if 0 < zeroCount plan ∧ sumCounts plan < target then
    plan.map (fun s =>
      if s.wordCount == 0 then
        { s with wordCount := jsRoundDiv (target - sumCounts plan) (zeroCount plan : Int) }
      else s)
  else plan

lemma jsRoundDiv_bounds (p q : Int) (hq : 0 < q) :
    2 * q * jsRoundDiv p q ≤ 2 * p + q ∧ 2 * p + q < 2 * q * jsRoundDiv p q + 2 * q := by
  have he := Int.ediv_add_emod (2 * p + q) (2 * q)
  have h1 := Int.emod_nonneg (2 * p + q) (by omega : (2 * q : Int) ≠ 0)
  have h2 := Int.emod_lt_of_pos (2 * p + q) (by omega : (0 : Int) < 2 * q)
  unfold jsRoundDiv
  omega

lemma largeTargetStructure_sum (t : Int) : sumCounts (largeTargetStructure t) = t := by
  simp only [largeTargetStructure, sumCounts, List.map_cons, List.map_nil, List.sum_cons,
    List.sum_nil]
  ring

lemma standardStructure_sum_close (t : Int) :
    (sumCounts (standardStructure t) - t).natAbs ≤ 4 := by
  have b1 := jsRoundDiv_bounds (t * 15) 1000 (by omega)
  have b2 := jsRoundDiv_bounds (t * 10) 100 (by omega)
  have b3 := jsRoundDiv_bounds (t * 20) 100 (by omega)
  have b4 := jsRoundDiv_bounds (t * 175) 1000 (by omega)
  have b5 := jsRoundDiv_bounds (t * 6) 100 (by omega)
  simp only [standardStructure, sumCounts, List.map_cons, List.map_nil, List.sum_cons,
    List.sum_nil]
  omega

lemma sumCounts_cons (s : SectionSpec) (rest : List SectionSpec) :
    sumCounts (s :: rest) = s.wordCount + sumCounts rest := by
  simp [sumCounts]

lemma zeroCount_cons (s : SectionSpec) (rest : List SectionSpec) :
    zeroCount (s :: rest) = if s.wordCount = 0 then zeroCount rest + 1 else zeroCount rest := by
  by_cases hs : s.wordCount = 0 <;> simp [zeroCount, List.filter_cons, hs]

lemma distribute_map_sum (per : Int) (plan : List SectionSpec) :
    sumCounts (plan.map (fun s =>
        if s.wordCount == 0 then { s with wordCount := per } else s)) =
      sumCounts plan + (zeroCount plan : Int) * per := by
  induction plan with
  | nil => simp [sumCounts, zeroCount]
  | cons s rest ih =>
    by_cases hs : s.wordCount = 0
    · have hb : (s.wordCount == 0) = true := by simp [hs]
      simp [sumCounts_cons, zeroCount_cons, hs, hb] at ih ⊢
      rw [ih]
      ring
    · have hb : (s.wordCount == 0) = false := by simp [hs]
      simp [sumCounts_cons, zeroCount_cons, hs, hb] at ih ⊢
      rw [ih]
      ring

lemma distributeStructure_sum (target : Int) (plan : List SectionSpec)
    (hk : 0 < zeroCount plan) (ht : sumCounts plan < target) :
    sumCounts (distributeStructure target plan) =
      sumCounts plan +
        (zeroCount plan : Int) * jsRoundDiv (target - sumCounts plan) (zeroCount plan : Int) := by
  rw [distributeStructure, if_pos ⟨hk, ht⟩]
  exact distribute_map_sum _ plan

lemma distributeStructure_no_zero (target : Int) (plan : List SectionSpec)
    (hk : 0 < zeroCount plan) (ht : sumCounts plan < target)
    (hhalf : (zeroCount plan : Int) ≤ 2 * (target - sumCounts plan)) :
    ∀ s ∈ distributeStructure target plan, s.wordCount ≠ 0 := by
  intro s hs
  rw [distributeStructure, if_pos ⟨hk, ht⟩] at hs
  obtain ⟨t0, _, rfl⟩ := List.mem_map.mp hs
  by_cases h0 : t0.wordCount = 0
  · have hb : (t0.wordCount == 0) = true := by simp [h0]
    simp only [hb, if_true]
    have hq : (0 : Int) < (zeroCount plan : Int) := by exact_mod_cast hk
    have hbnd := jsRoundDiv_bounds (target - sumCounts plan) (zeroCount plan : Int) hq
    intro hcontra
    have hw : jsRoundDiv (target - sumCounts plan) (zeroCount plan : Int) = 0 := hcontra
    rw [hw] at hbnd
    omega
  · have hb : (t0.wordCount == 0) = false := by simp [h0]
    simp only [hb, Bool.false_eq_true, if_false]
    exact h0

/-- C3 counterexample: for the synthesized standard 8-section table the sum of
the section word counts does not equal the target.  At target 999 the eight
independently rounded percentage allocations (15, 100, 200, 175, 175, 175,
100, 60) sum to 1000, not 999 — so the claimed exact-sum property fails for
the standard table. -/
theorem standard_table_sum_not_exact :
    sumCounts (standardStructure 999) = 1000 ∧ (1000 : Int) ≠ 999 := by
  constructor
  · decide
  · decide

/-- C3 (amended): the exact-sum property holds for the synthesized large-target
table (targets ≥ 50000), whose final body section absorbs the rounding
remainder.  For the standard 8-section table the sum is only within 4 words of
the target (each of the eight roundings deviates by at most half a word).  For
user-specified structures, the even distribution gives each zero-count section
`Math.round(remaining / k)` words, so the total becomes
`totalExplicit + k * Math.round(remaining / k)` rather than exactly the
target; previously-zero sections end up nonzero provided `k ≤ 2 * remaining`
(otherwise the rounded share can itself be 0). -/
theorem allocation_sums_characterised :
    (∀ t : Int, 50000 ≤ t → sumCounts (largeTargetStructure t) = t) ∧
    (∀ t : Int, 0 < t → t < 50000 → (sumCounts (standardStructure t) - t).natAbs ≤ 4) ∧
    (∀ (target : Int) (plan : List SectionSpec),
        0 < zeroCount plan → sumCounts plan < target →
          sumCounts (distributeStructure target plan) =
            sumCounts plan +
              (zeroCount plan : Int) *
                jsRoundDiv (target - sumCounts plan) (zeroCount plan : Int)) ∧
    (∀ (target : Int) (plan : List SectionSpec),
        0 < zeroCount plan → sumCounts plan < target →
          (zeroCount plan : Int) ≤ 2 * (target - sumCounts plan) →
          ∀ s ∈ distributeStructure target plan, s.wordCount ≠ 0) := by
  refine ⟨fun t _ => largeTargetStructure_sum t,
    fun t _ _ => standardStructure_sum_close t,
    fun target plan hk ht => distributeStructure_sum target plan hk ht,
    fun target plan hk ht hh => distributeStructure_no_zero target plan hk ht hh⟩

/-- Witness for the amended C3 theorem at concrete inputs: the large table at
60000, the standard table at 999, and the even distribution at target 10 over
a single section without an explicit count. -/
theorem allocation_sums_characterised_witness :
    sumCounts (largeTargetStructure 60000) = 60000 ∧
    (sumCounts (standardStructure 999) - 999).natAbs ≤ 4 ∧
    sumCounts (distributeStructure 10 [{ name := "A", wordCount := 0 }]) =
      sumCounts [{ name := "A", wordCount := 0 }] +
        (zeroCount [{ name := "A", wordCount := 0 }] : Int) *
          jsRoundDiv (10 - sumCounts [{ name := "A", wordCount := 0 }])
            (zeroCount [{ name := "A", wordCount := 0 }] : Int) ∧
    ({ name := "A", wordCount := (10 : Int) } : SectionSpec).wordCount ≠ 0 := by
  refine ⟨allocation_sums_characterised.1 60000 (by decide),
    allocation_sums_characterised.2.1 999 (by decide) (by decide),
    allocation_sums_characterised.2.2.1 10 _ (by decide) (by decide),
    allocation_sums_characterised.2.2.2 10 [{ name := "A", wordCount := 0 }]
      (by decide) (by decide) (by decide) { name := "A", wordCount := (10 : Int) }
      (by decide)⟩

/-! ### Per-section generation loop with the freemium ceiling
(`universalExpand`, lines 1416-1527)

The loop walks the structure in order; before starting each section it
runs the check `if (maxWords && cumulativeWordCount >= maxWords)` (line
1426) and, when it fires, emits a `complete` stream event carrying the
partial cumulative word count and breaks.  JS truthiness of `maxWords`
is modelled explicitly: `null`/absent and `0` are falsy.  The word count
each generated section contributes
(`sectionContent.trim().split(/\s+/).length`, line 1499) is abstracted
into the oracle `gen : Nat → Int` (section index to word count); the
inner continuation loop is modelled separately by `generateSectionLoop`. -/

inductive StreamEvent
  | sectionComplete (index : Nat) (wordCount : Int) (totalWordCount : Int)
  | completeEv (totalWordCount : Int)
deriving DecidableEq

/-- JS truthiness test `maxWords && cumulativeWordCount >= maxWords` of line
1426: `maxWords` must be present and nonzero, and the cumulative count must
have reached it. -/
def ceilingReached (mw : Option Int) (cum : Int) : Bool :=
  match mw with
  | none => false
  | some m => m != 0 && decide (m ≤ cum)

structure SectionLoopOut where
  generated : List String
  cumulative : Int
  events : List StreamEvent
  halted : Bool
deriving DecidableEq

def sectionLoopAux (gen : Nat → Int) (mw : Option Int) :
    List SectionSpec → Nat → Int → SectionLoopOut
  | [], _, cum => { generated := [], cumulative := cum, events := [], halted := false }
  | s :: rest, i, cum =>
    if ceilingReached mw cum then
      { generated := [], cumulative := cum,
        events := [StreamEvent.completeEv cum], halted := true }
    else
      { generated := s.name :: (sectionLoopAux gen mw rest (i + 1) (cum + gen i)).generated,
        cumulative := (sectionLoopAux gen mw rest (i + 1) (cum + gen i)).cumulative,
        events := StreamEvent.sectionComplete i (gen i) (cum + gen i) ::
          (sectionLoopAux gen mw rest (i + 1) (cum + gen i)).events,
        halted := (sectionLoopAux gen mw rest (i + 1) (cum + gen i)).halted }

/-- The section-generation loop of `universalExpand`, started at section index
0 with cumulative word count 0. -/
def sectionLoop (plan : List SectionSpec) (mw : Option Int) (gen : Nat → Int) :
    SectionLoopOut :=
  sectionLoopAux gen mw plan 0 0

/-- Cumulative word count after the first `n` sections have been generated. -/
def cumBefore (gen : Nat → Int) (n : Nat) : Int := ((List.range n).map gen).sum

lemma cumBefore_succ (gen : Nat → Int) (n : Nat) :
    cumBefore gen (n + 1) = cumBefore gen n + gen n := by
  simp [cumBefore, List.range_succ]

lemma sectionLoopAux_spec (gen : Nat → Int) (m : Int) (hm : m ≠ 0) :
    ∀ (plan : List SectionSpec) (i : Nat) (cum : Int), cum = cumBefore gen i →
      (∀ j, j < (sectionLoopAux gen (some m) plan i cum).generated.length →
          cumBefore gen (i + j) < m) ∧
      (sectionLoopAux gen (some m) plan i cum).cumulative =
        cumBefore gen (i + (sectionLoopAux gen (some m) plan i cum).generated.length) ∧
      ((sectionLoopAux gen (some m) plan i cum).halted = true →
        StreamEvent.completeEv (sectionLoopAux gen (some m) plan i cum).cumulative ∈
            (sectionLoopAux gen (some m) plan i cum).events ∧
          m ≤ (sectionLoopAux gen (some m) plan i cum).cumulative ∧
          (sectionLoopAux gen (some m) plan i cum).generated.length < plan.length) ∧
      ((sectionLoopAux gen (some m) plan i cum).halted = false →
        (sectionLoopAux gen (some m) plan i cum).generated.length = plan.length) := by
  intro plan
  induction plan with
  | nil =>
    intro i cum hcum
    refine ⟨fun j hj => absurd hj (by simp [sectionLoopAux]), by simp [sectionLoopAux, hcum],
      fun h => absurd h (by simp [sectionLoopAux]), fun _ => by simp [sectionLoopAux]⟩
  | cons s rest ih =>
    intro i cum hcum
    by_cases hreach : m ≤ cum
    · have hcond : ceilingReached (some m) cum = true := by
        simp [ceilingReached, hm, hreach]
      rw [sectionLoopAux, if_pos hcond]
      refine ⟨fun j hj => absurd hj (by simp), by simpa using hcum,
        fun _ => ⟨by simp, by simpa using hreach, by simp⟩, fun h => by simp at h⟩
    · have hcond : ¬ (ceilingReached (some m) cum = true) := by
        simp [ceilingReached, hm, hreach]
      rw [sectionLoopAux, if_neg hcond]
      obtain ⟨ha, hb, hc, hd⟩ := ih (i + 1) (cum + gen i) (by rw [hcum, cumBefore_succ])
      refine ⟨?_, ?_, ?_, ?_⟩
      · intro j hj
        cases j with
        | zero =>
          have : cumBefore gen (i + 0) = cum := by simpa using hcum.symm
          rw [this]
          exact lt_of_not_le hreach
        | succ j' =>
          have h2 := ha j' (by simpa using hj)
          have he : i + (j' + 1) = i + 1 + j' := by omega
          rw [he]
          exact h2
      · have he : i + ((sectionLoopAux gen (some m) rest (i + 1)
            (cum + gen i)).generated.length + 1) =
            i + 1 + (sectionLoopAux gen (some m) rest (i + 1)
              (cum + gen i)).generated.length := by omega
        simpa [he] using hb
      · intro hh
        have h3 := hc (by simpa using hh)
        refine ⟨?_, by simpa using h3.2.1, by simpa using Nat.succ_lt_succ h3.2.2⟩
        simp only [List.mem_cons]
        exact Or.inr h3.1
      · intro hh
        have h4 := hd (by simpa using hh)
        simpa using h4

/-- C8 (amended): for every job with a nonzero max-words ceiling `m`, the
ceiling is checked before starting each new section (so the cumulative word
count observed before any generated section is below `m`); once the cumulative
count meets or exceeds the ceiling, the loop halts with no further section
generated and emits a `complete` event carrying the partial cumulative word
count; when the loop is never halted, every planned section is generated.  A
ceiling of exactly 0 is falsy under the `maxWords &&` truthiness check of line
1426 and never halts the loop (see the separate counterexample). -/
theorem maxwords_ceiling_cooperative (plan : List SectionSpec) (gen : Nat → Int)
    (m : Int) (hm : m ≠ 0) :
    (∀ j, j < (sectionLoop plan (some m) gen).generated.length → cumBefore gen j < m) ∧
    (sectionLoop plan (some m) gen).cumulative =
      cumBefore gen (sectionLoop plan (some m) gen).generated.length ∧
    ((sectionLoop plan (some m) gen).halted = true →
      StreamEvent.completeEv (sectionLoop plan (some m) gen).cumulative ∈
          (sectionLoop plan (some m) gen).events ∧
        m ≤ (sectionLoop plan (some m) gen).cumulative ∧
        (sectionLoop plan (some m) gen).generated.length < plan.length) ∧
    ((sectionLoop plan (some m) gen).halted = false →
      (sectionLoop plan (some m) gen).generated.length = plan.length) := by
  have h := sectionLoopAux_spec gen m hm plan 0 0 (by simp [cumBefore])
  simpa [sectionLoop] using h

/-- Witness for C8 at a concrete job: one planned section, ceiling 50, and a
section generator yielding 100 words.  The first section is generated (the
cumulative count 0 is below the ceiling when checked). -/
theorem maxwords_ceiling_cooperative_witness :
    cumBefore (fun _ => 100) 0 < 50 ∧
    (sectionLoop [{ name := "A", wordCount := 10 }] (some 50) (fun _ => 100)).cumulative =
      cumBefore (fun _ => 100)
        (sectionLoop [{ name := "A", wordCount := 10 }] (some 50)
          (fun _ => 100)).generated.length := by
  have h := maxwords_ceiling_cooperative [{ name := "A", wordCount := 10 }]
    (fun _ => 100) 50 (by decide)
  exact ⟨h.1 0 (by decide), h.2.1⟩

/-- C8 counterexample: a max-words ceiling of 0.  The ceiling is set and is
already met by the initial cumulative word count 0, so the claim demands that
no section be generated; but `maxWords && ...` treats 0 as falsy, so the loop
generates the planned section anyway and never halts early. -/
theorem zero_ceiling_not_respected :
    (sectionLoop [{ name := "A", wordCount := 100 }] (some 0)
        (fun _ => 100)).generated.length = 1 ∧
    (sectionLoop [{ name := "A", wordCount := 100 }] (some 0)
        (fun _ => 100)).halted = false ∧
    ceilingReached (some 1) 0 = false ∧ (0 : Int) ≤ 0 := by
  refine ⟨?_, ?_, ?_, by decide⟩ <;> rfl

/-- The return value of `universalExpand` (lines 1689-1695): the
`sectionsGenerated` field is `structure.length`, the length of the *planned*
structure, regardless of how many sections the loop actually generated. -/
structure ExpansionResultModel where
  sectionsGenerated : Nat
deriving DecidableEq

def assembleResult (plan : List SectionSpec) (_r : SectionLoopOut) : ExpansionResultModel :=
  { sectionsGenerated := plan.length }

/-- C9: `sectionsGenerated` does not equal the number of sections actually
generated when the max-words ceiling halts the loop early.  With two planned
sections, ceiling 50 and a generator yielding 100 words per section, the loop
halts after one section, yet the returned `sectionsGenerated` is the planned
count 2. -/
theorem sectionsGenerated_is_planned_count :
    (assembleResult [{ name := "A", wordCount := 10 }, { name := "B", wordCount := 10 }]
        (sectionLoop [{ name := "A", wordCount := 10 }, { name := "B", wordCount := 10 }]
          (some 50) (fun _ => 100))).sectionsGenerated = 2 ∧
    (sectionLoop [{ name := "A", wordCount := 10 }, { name := "B", wordCount := 10 }]
        (some 50) (fun _ => 100)).generated.length = 1 ∧
    (sectionLoop [{ name := "A", wordCount := 10 }, { name := "B", wordCount := 10 }]
        (some 50) (fun _ => 100)).halted = true := by
  refine ⟨rfl, ?_, ?_⟩ <;> rfl

/-! ### Stitch repair application (`universalExpand`, lines 1615-1646)

A repair entry from the stitch call names a target section and gives an
exact problematic substring plus its replacement.  The application logic
(lines 1622-1645) locates the target section by exact `===` name match
against the structure, else by the section text starting with the
reported name, else by scanning all sections for literal containment of
the problematic substring; it then replaces the first literal occurrence
via `String.prototype.replace` with a string pattern.  Even with a string
pattern, JS runs the replacement string through `GetSubstitution`: `$$`,
`$&`, `$` + backquote and `$` + quote are interpreted (with a string
pattern there are no capture groups, so `$1`, `$<...>` and any other `$`
sequence pass through literally); this is modelled by `getSubstitution`
below.  A name-matched index
beyond the generated-sections list (possible only if the freemium break
left the structure longer than `sections`) makes JS throw on
`undefined.replace`, aborting the whole stitch pass through the `catch`
at line 1663; that branch is modelled as the identity. -/

/-- JS `String.prototype.startsWith`. -/
def strStartsWith (s pat : String) : Bool := pat.data.isPrefixOf s.data

/-- Substring containment on char lists (JS `String.prototype.includes`). -/
def containsSeq (pat text : List Char) : Bool := text.tails.any (fun t => pat.isPrefixOf t)

/-- JS `s.includes(pat)`. -/
def strContainsStr (s pat : String) : Bool := containsSeq pat.data s.data

/-- JS `GetSubstitution` for a string-pattern `replace` (no capture groups):
in the replacement template, `$$` yields `$`, `$&` yields the matched
substring, `$` + backquote (U+0060) yields the text before the match, and
`$` + quote (U+0027) yields the text after the match.  Any other `$`
(followed by digits, `<`, any other character, or nothing) emits the `$`
literally and scanning resumes at the following character — byte-identical
to the spec's handling of `$n`/`$<...>` when the capture list is empty and
`namedCaptures` is `undefined`, as they are for a string pattern. -/
def getSubstitution (matched before after : List Char) : List Char → List Char
  | [] => []
  | [c] => [c]
  | c :: d :: rest2 =>
    if c == '$' then
      if d == '$' then '$' :: getSubstitution matched before after rest2
      else if d == '&' then matched ++ getSubstitution matched before after rest2
      else if d == '\x60' then before ++ getSubstitution matched before after rest2
      else if d == '\x27' then after ++ getSubstitution matched before after rest2
      else '$' :: getSubstitution matched before after (d :: rest2)
    else c :: getSubstitution matched before after (d :: rest2)

/-- Split the text around the first occurrence of `pat`, if any:
`(text before the match, text after the match)`. -/
def replaceFirstAux (pat : List Char) : List Char → Option (List Char × List Char)
  | [] => if pat = [] then some ([], []) else none
  | c :: rest =>
    if pat.isPrefixOf (c :: rest) then some ([], (c :: rest).drop pat.length)
    else (replaceFirstAux pat rest).map (fun pr => (c :: pr.1, pr.2))

/-- `s.replace(pat, repl)` with a string pattern: locate the first literal
occurrence and splice in the `GetSubstitution`-expanded replacement; the
unchanged string when the pattern does not occur. -/
def replaceFirstStr (pat repl s : String) : String :=
  match replaceFirstAux pat.data s.data with
  | some (pre, suf) => ⟨pre ++ getSubstitution pat.data pre suf repl.data ++ suf⟩
  | none => s

structure RepairEntry where
  sectionName : String
  problematicText : String
  repairedText : String
deriving DecidableEq

/-- The three-stage section lookup of lines 1624-1632: exact name match in the
structure, else prefix match on the serialized section text, else containment
scan for the problematic substring. -/
def resolveRepairIdx (plan : List SectionSpec) (secs : List String)
    (r : RepairEntry) : Option Nat :=
  match plan.findIdx? (fun s => s.name == r.sectionName) with
  | some i => some i
  | none =>
    match secs.findIdx? (fun s => strStartsWith s r.sectionName) with
    | some i => some i
    | none => secs.findIdx? (fun s => strContainsStr s r.problematicText)

/-- Application of one repair entry (lines 1633-1644): when a section index was
resolved and both texts are truthy (nonempty), replace the first literal
occurrence in that section; otherwise leave the sections untouched. -/
def applyRepair (plan : List SectionSpec) (secs : List String)
    (r : RepairEntry) : List String :=
  match resolveRepairIdx plan secs r with
  | some i =>
    if r.problematicText ≠ "" ∧ r.repairedText ≠ "" then
      match secs.get? i with
      | some old => secs.set i (replaceFirstStr r.problematicText r.repairedText old)
      | none => secs
    else secs
  | none => secs

lemma replaceFirstAux_of_not_contains (pat : List Char) (hpat : pat ≠ []) :
    ∀ s : List Char, containsSeq pat s = false → replaceFirstAux pat s = none := by
  intro s
  induction s with
  | nil =>
    intro _
    simp [replaceFirstAux, hpat]
  | cons c rest ih =>
    intro h
    have h1 : pat.isPrefixOf (c :: rest) = false := by
      by_contra hcontra
      have : pat.isPrefixOf (c :: rest) = true := by
        cases hx : pat.isPrefixOf (c :: rest) with
        | true => rfl
        | false => exact absurd hx hcontra
      have : containsSeq pat (c :: rest) = true := by
        simp [containsSeq, List.tails]
        exact Or.inl (List.isPrefixOf_iff_prefix.mp this)
      rw [this] at h
      exact absurd h (by simp)
    have h2 : containsSeq pat rest = false := by
      simp [containsSeq, List.tails] at h ⊢
      intro t ht
      exact h.2 t ht
    rw [replaceFirstAux, if_neg (by simp [h1]), ih h2]
    rfl

lemma replaceFirstAux_splice (pat : List Char) :
    ∀ s : List Char, containsSeq pat s = true →
      ∃ pre suf : List Char,
        s = pre ++ pat ++ suf ∧
        replaceFirstAux pat s = some (pre, suf) ∧
        ∀ k, k < pre.length → ¬ pat.isPrefixOf (s.drop k) := by
  intro s
  induction s with
  | nil =>
    intro h
    have hpat : pat = [] := by
      simpa [containsSeq, List.tails, List.isPrefixOf_iff_prefix] using h
    refine ⟨[], [], by simp [hpat], by simp [replaceFirstAux, hpat], fun k hk => by simp at hk⟩
  | cons c rest ih =>
    intro h
    by_cases hp : pat.isPrefixOf (c :: rest) = true
    · have hdrop : pat ++ (c :: rest).drop pat.length = c :: rest :=
        List.prefix_iff_eq_append.mp (List.isPrefixOf_iff_prefix.mp hp)
      refine ⟨[], (c :: rest).drop pat.length, by simpa using hdrop.symm,
        by simp [replaceFirstAux, hp], fun k hk => by simp at hk⟩
    · have hrest : containsSeq pat rest = true := by
        simp [containsSeq, List.tails] at h ⊢
        rcases h with h | h
        · exact absurd (by simpa [List.isPrefixOf_iff_prefix] using h) (by simpa using hp)
        · exact h
      obtain ⟨pre, suf, hsplit, haux, hfirst⟩ := ih hrest
      refine ⟨c :: pre, suf, by simp [hsplit], ?_, ?_⟩
      · rw [replaceFirstAux, if_neg hp, haux]
        rfl
      · intro k hk
        cases k with
        | zero => simpa using hp
        | succ k' =>
          have := hfirst k' (by simpa using hk)
          simpa using this

lemma getSubstitution_no_dollar (m b a : List Char) :
    ∀ repl : List Char, (∀ c ∈ repl, c ≠ '$') → getSubstitution m b a repl = repl := by
  intro repl
  induction repl with
  | nil => intro _; simp [getSubstitution]
  | cons c rest ih =>
    intro h
    have hc : (c == '$') = false := by
      simp only [beq_eq_false_iff_ne, ne_eq]
      exact h c (by simp)
    cases rest with
    | nil => simp [getSubstitution]
    | cons d rest2 =>
      simp [getSubstitution, hc, ih (fun e he => h e (by simp [he]))]

lemma set_get_self (secs : List String) (i : Nat) (old : String)
    (h : secs.get? i = some old) : secs.set i old = secs := by
  apply List.ext_get?
  intro j
  by_cases hij : i = j
  · subst hij
    rw [List.get?_set_eq, h]
    rfl
  · exact List.get?_set_ne _ _ hij

lemma string_data_ne {s : String} (h : s ≠ "") : s.data ≠ [] := by
  intro hd
  exact h (String.ext hd)

lemma applyRepair_resolved (plan : List SectionSpec) (secs : List String)
    (r : RepairEntry) (i : Nat) (old : String)
    (hres : resolveRepairIdx plan secs r = some i)
    (hp : r.problematicText ≠ "") (hq : r.repairedText ≠ "")
    (hold : secs.get? i = some old) :
    applyRepair plan secs r =
      secs.set i (replaceFirstStr r.problematicText r.repairedText old) := by
  have hold2 : secs[i]? = some old := by
    rw [← List.get?_eq_getElem?]
    exact hold
  simp [applyRepair, hres, hp, hq, hold, hold2]

/-- C5 counterexample: a repair whose `problematicText` occurs verbatim in
exactly one section of the generated section list, yet no replacement is
performed anywhere: the entry names section A, the exact name match of line
1624 resolves the repair to section A (in which the substring is absent), the
containment fallback of line 1630 is never consulted, and
`"A\n\nhello world".replace("foo", "baz")` leaves the section unchanged. -/
theorem repair_name_priority_blocks_replacement :
    ((["A\n\nhello world", "B\n\nfoo bar"] : List String).filter
        (fun s => strContainsStr s ("foo"))).length = 1 ∧
    applyRepair
        [{ name := "A", wordCount := 100 }, { name := "B", wordCount := 100 }]
        ["A\n\nhello world", "B\n\nfoo bar"]
        { sectionName := "A", problematicText := "foo", repairedText := "baz" } =
      ["A\n\nhello world", "B\n\nfoo bar"] := by
  constructor
  · rfl
  · rfl

/-- C5 (amended): for every repair entry, the section-lookup cascade (exact
name match, else serialized-text prefix match, else containment scan) selects
at most one index.  When no index is resolved the repair is skipped without
modifying any section.  When an index `i` is resolved and both repair texts
are nonempty, every section other than `i` is byte-identical, section `i`
becomes its own text with the first literal occurrence replaced, and in
particular: if the resolved section does not contain the problematic text
verbatim the whole list is unchanged (so a repair resolved by name to a
section other than the one containing the text is a no-op), while if it does
contain it, the section splits as `pre ++ problematic ++ suf` around the
leftmost occurrence and becomes `pre ++ sub ++ suf`, where `sub` is the
repaired text expanded by JS `GetSubstitution` (interpreting `$$`, `$&`,
`$` + backquote and `$` + quote against the match) — in particular exactly
the literal repaired text whenever it contains no `$`. -/
theorem stitch_repair_localized :
    (∀ (plan : List SectionSpec) (secs : List String) (r : RepairEntry),
        resolveRepairIdx plan secs r = none → applyRepair plan secs r = secs) ∧
    (∀ (plan : List SectionSpec) (secs : List String) (r : RepairEntry)
        (i : Nat) (old : String),
        resolveRepairIdx plan secs r = some i →
        r.problematicText ≠ "" → r.repairedText ≠ "" →
        secs.get? i = some old →
          (∀ j, j ≠ i → (applyRepair plan secs r).get? j = secs.get? j) ∧
          (applyRepair plan secs r).get? i =
            some (replaceFirstStr r.problematicText r.repairedText old) ∧
          (strContainsStr old r.problematicText = false →
            applyRepair plan secs r = secs) ∧
          (strContainsStr old r.problematicText = true →
            ∃ pre suf : List Char,
              old.data = pre ++ r.problematicText.data ++ suf ∧
              (replaceFirstStr r.problematicText r.repairedText old).data =
                pre ++ getSubstitution r.problematicText.data pre suf
                  r.repairedText.data ++ suf ∧
              ((∀ c ∈ r.repairedText.data, c ≠ '$') →
                (replaceFirstStr r.problematicText r.repairedText old).data =
                  pre ++ r.repairedText.data ++ suf) ∧
              ∀ k, k < pre.length →
                ¬ r.problematicText.data.isPrefixOf (old.data.drop k))) := by
  constructor
  · intro plan secs r hres
    rw [applyRepair, hres]
  · intro plan secs r i old hres hp hq hold
    have happ := applyRepair_resolved plan secs r i old hres hp hq hold
    have hilen : i < secs.length := by
      by_contra hge
      rw [List.get?_eq_none.mpr (by omega)] at hold
      exact absurd hold (by simp)
    refine ⟨?_, ?_, ?_, ?_⟩
    · intro j hij
      rw [happ]
      exact List.get?_set_ne _ _ (fun he => hij he.symm)
    · rw [happ, List.get?_set_eq, hold]
      rfl
    · intro hnc
      have haux := replaceFirstAux_of_not_contains r.problematicText.data
        (string_data_ne hp) old.data hnc
      have hrf : replaceFirstStr r.problematicText r.repairedText old = old := by
        rw [replaceFirstStr, haux]
      rw [happ, hrf]
      exact set_get_self secs i old hold
    · intro hc
      obtain ⟨pre, suf, hsplit, haux, hfirst⟩ :=
        replaceFirstAux_splice r.problematicText.data old.data hc
      have hdata : (replaceFirstStr r.problematicText r.repairedText old).data =
          pre ++ getSubstitution r.problematicText.data pre suf
            r.repairedText.data ++ suf := by
        rw [replaceFirstStr, haux]
      refine ⟨pre, suf, hsplit, hdata, ?_, hfirst⟩
      intro hnd
      rw [hdata, getSubstitution_no_dollar r.problematicText.data pre suf
        r.repairedText.data hnd]

/-- Witness for the amended C5 theorem: a repair whose name matches no
structure entry and no section text, so the containment scan resolves it to
the single section containing the substring; the other section is untouched
and the occurrence is replaced. -/
theorem stitch_repair_localized_witness :
    (applyRepair [] ["alpha", "x foo y"]
        { sectionName := "Z", problematicText := "foo", repairedText := "bar" }).get? 0 =
      some ("alpha") ∧
    (applyRepair [] ["alpha", "x foo y"]
        { sectionName := "Z", problematicText := "foo", repairedText := "bar" }).get? 1 =
      some (replaceFirstStr ("foo") ("bar") ("x foo y")) ∧
    replaceFirstStr ("foo") ("bar") ("x foo y") = ("x bar y") ∧
    replaceFirstStr ("b") ("[$&][$$]") ("abc") = ("a[b][$]c") := by
  have h := stitch_repair_localized.2 [] (["alpha", "x foo y"] : List String)
    { sectionName := "Z", problematicText := "foo", repairedText := "bar" } 1
    ("x foo y") (by rfl) (by decide) (by decide) (by rfl)
  exact ⟨h.1 0 (by decide), h.2.1, by rfl, by rfl⟩

/-! ### Instruction parsing (`parseExpansionInstructions`, lines 309-597)

The parser is a prioritized sequence of JS regular-expression matchers
over the raw instruction string.  They are embedded as character-list
scanners.  The ten word-count patterns (lines 352-363) are deterministic
once the harmless backtracking branches are resolved: every optional
fragment (`(?:TO)?`, `(?:\.\d+)?`, `(?:K)?`, `(?:A\s*)?`, ...) is
followed by a requirement (`whitespace-then-digits`, `WORD`, ...) that
can never be satisfied at the unconsumed optional text itself, so
consuming an optional fragment when it is present is always safe; the
one exception, the optional `S` of `WORDS?` when trailing context
follows (patterns 2 and 5), is implemented with an explicit
try-with-`S`-else-without branch.  Characters are compared by code
point; `/i` case folding is ASCII (JS instruction text here is ASCII). -/

def lowerChar (c : Char) : Char :=
  if 65 ≤ c.toNat ∧ c.toNat ≤ 90 then Char.ofNat (c.toNat + 32) else c

def upperChar (c : Char) : Char :=
  if 97 ≤ c.toNat ∧ c.toNat ≤ 122 then Char.ofNat (c.toNat - 32) else c

/-- Case-insensitive character comparison (regex `/i` flag). -/
def ciEqChar (a b : Char) : Bool := lowerChar a == lowerChar b

def isWsChar (c : Char) : Bool :=
  c.toNat == 32 || c.toNat == 9 || c.toNat == 10 || c.toNat == 13 ||
    c.toNat == 11 || c.toNat == 12

def isDigitChar (c : Char) : Bool := decide (48 ≤ c.toNat) && decide (c.toNat ≤ 57)

def isDigitComma (c : Char) : Bool := isDigitChar c || c == ','

def isKChar (c : Char) : Bool := c == 'K' || c == 'k'

def digitVal (c : Char) : Nat := c.toNat - 48

def digitsToNat (l : List Char) : Nat := l.foldl (fun a c => a * 10 + digitVal c) 0

def toUpperList (l : List Char) : List Char := l.map upperChar

def trimChars (l : List Char) : List Char :=
  ((l.dropWhile isWsChar).reverse.dropWhile isWsChar).reverse

/-- Case-insensitive literal: consume `pat` from the front of the input. -/
def litCI : List Char → List Char → Option (List Char)
  | [], s => some s
  | _ :: _, [] => none
  | p :: ps, c :: cs => if ciEqChar p c then litCI ps cs else none

/-- `\s*` (greedy whitespace; the star never needs backtracking in the
word-count patterns because whitespace never satisfies what follows it). -/
def skipWs (s : List Char) : List Char := s.dropWhile isWsChar

/-- A captured number `([\d,]+(?:\.\d+)?)`: the `[\d,]+` run and the digits of
the optional fraction. -/
structure NumCap where
  intPart : List Char
  fracPart : List Char
deriving DecidableEq

/-- Match `([\d,]+(?:\.\d+)?)` at the front of the input.  Consuming the
fraction when `.` is followed by a digit is safe: if the continuation fails
after the fraction, the fraction-less branch resumes at `.`, which none of
`\s*`, `K`, `WORD` accepts; shorter greedy runs resume at digits or commas and
fail the same way. -/
def takeNum (s : List Char) : Option (NumCap × List Char) :=
  let ip := s.takeWhile isDigitComma
  let rest := s.dropWhile isDigitComma
  if ip = [] then none
  else
    match rest with
    | c :: r2 =>
      if c == '.' then
        let fp := r2.takeWhile isDigitChar
        if fp = [] then some ({ intPart := ip, fracPart := [] }, rest)
        else some ({ intPart := ip, fracPart := fp }, r2.dropWhile isDigitChar)
      else some ({ intPart := ip, fracPart := [] }, rest)
    | [] => some ({ intPart := ip, fracPart := [] }, rest)

/-- `WORD` followed by an optional trailing `S` (greedy, nothing follows). -/
def wordSOpt (s : List Char) : Option (List Char) :=
  match litCI ("WORD".toList) s with
  | none => none
  | some r =>
    match r with
    | c :: r2 => if ciEqChar c 'S' then some r2 else some r
    | [] => some r

/-- `\s*(?:K)?\s*WORDS?` at the end of a word-count pattern. -/
def kTailFinal (s : List Char) : Option (List Char) :=
  let s1 := skipWs s
  match s1 with
  | c :: r =>
    if isKChar c then
      match wordSOpt (skipWs r) with
      | some rest => some rest
      | none => wordSOpt s1
    else wordSOpt s1
  | [] => none

/-- Ordered alternation of case-insensitive literals. -/
def altLitCI : List (List Char) → List Char → Option (List Char)
  | [], _ => none
  | a :: rest, s =>
    match litCI a s with
    | some r => some r
    | none => altLitCI rest s

/-- After `WORD`: optional `S`, then `\s*`, then one of `alts`; the optional
`S` genuinely needs backtracking here (e.g. `WORDS` directly followed by
`SCHOLARLY` must leave the `S` to the alternation). -/
def afterWordThen (alts : List (List Char)) (r : List Char) : Option (List Char) :=
  let withS : Option (List Char) :=
    match r with
    | c :: r2 => if ciEqChar c 'S' then altLitCI alts (skipWs r2) else none
    | [] => none
  match withS with
  | some rest => some rest
  | none => altLitCI alts (skipWs r)

/-- `\s*(?:K)?\s*WORDS?\s*(?:alt1|alt2|...)`. -/
def kTailThen (alts : List (List Char)) (s : List Char) : Option (List Char) :=
  let s1 := skipWs s
  let afterK : Option (List Char) :=
    match s1 with
    | c :: r =>
      if isKChar c then
        match litCI ("WORD".toList) (skipWs r) with
        | some r2 => afterWordThen alts r2
        | none => none
      else none
    | [] => none
  match afterK with
  | some rest => some rest
  | none =>
    match litCI ("WORD".toList) s1 with
    | some r2 => afterWordThen alts r2
    | none => none

/-- `\s*(?:K)?\s*WORD` (patterns 6-10 end at `WORD` with no optional `S`). -/
def kTailWord (s : List Char) : Option (List Char) :=
  let s1 := skipWs s
  match s1 with
  | c :: r =>
    if isKChar c then
      match litCI ("WORD".toList) (skipWs r) with
      | some rest => some rest
      | none => litCI ("WORD".toList) s1
    else litCI ("WORD".toList) s1
  | [] => none

/-- Pattern 1, `/EXPAND\s*(?:TO)?\s*([\d,]+(?:\.\d+)?)\s*(?:K)?\s*WORDS?/i`,
matched at the front of the input. -/
def matchExpandAt (s : List Char) : Option (List Char × NumCap) :=
  match litCI ("EXPAND".toList) s with
  | none => none
  | some s1 =>
    let s2 := skipWs s1
    let s3 := match litCI ("TO".toList) s2 with
      | some r => skipWs r
      | none => s2
    match takeNum s3 with
    | none => none
    | some (cap, s4) => (kTailFinal s4).map (fun rest => (rest, cap))

/-- Patterns of shape `KEYWORD\s*(?:OPT)?\s*(num)\s*(?:K)?\s*WORDS?`
(patterns 3 and 4, with the keyword alternation and the optional connective
`OF`). -/
def matchKwOfNumAt (kws : List (List Char)) (opt : List Char) (s : List Char) :
    Option (List Char × NumCap) :=
  match altLitCI kws s with
  | none => none
  | some s1 =>
    let s2 := skipWs s1
    let s3 := match litCI opt s2 with
      | some r => skipWs r
      | none => s2
    match takeNum s3 with
    | none => none
    | some (cap, s4) => (kTailFinal s4).map (fun rest => (rest, cap))

/-- Patterns of shape `(num)\s*(?:K)?\s*WORDS?\s*(?:alt...)` (patterns 2
and 5). -/
def matchNumThenAt (alts : List (List Char)) (s : List Char) :
    Option (List Char × NumCap) :=
  match takeNum s with
  | none => none
  | some (cap, s1) => (kTailThen alts s1).map (fun rest => (rest, cap))

/-- Pattern 6, `/TURN\s*(?:THIS\s*)?INTO\s*(?:A\s*)?(num)\s*(?:K)?\s*WORD/i`. -/
def matchTurnIntoAt (s : List Char) : Option (List Char × NumCap) :=
  match litCI ("TURN".toList) s with
  | none => none
  | some s1 =>
    let s2 := skipWs s1
    let s3 := match litCI ("THIS".toList) s2 with
      | some r => skipWs r
      | none => s2
    match litCI ("INTO".toList) s3 with
    | none => none
    | some s4 =>
      let s5 := skipWs s4
      let s6 := match litCI ("A".toList) s5 with
        | some r => skipWs r
        | none => s5
      match takeNum s6 with
      | none => none
      | some (cap, s7) => (kTailWord s7).map (fun rest => (rest, cap))

/-- Patterns 7-10: `/KEYWORD\s*(?:A\s*)?(num)\s*(?:K)?\s*WORD/i`. -/
def matchVerbNumAt (kw : List Char) (s : List Char) : Option (List Char × NumCap) :=
  match litCI kw s with
  | none => none
  | some s1 =>
    let s2 := skipWs s1
    let s3 := match litCI ("A".toList) s2 with
      | some r => skipWs r
      | none => s2
    match takeNum s3 with
    | none => none
    | some (cap, s4) => (kTailWord s4).map (fun rest => (rest, cap))

/-- Leftmost match of a front-anchored matcher: try every start position from
the left; on success `match[0]` is the consumed span. -/
def scanFirst (m : List Char → Option (List Char × NumCap)) :
    List Char → Option (List Char × NumCap)
  | [] =>
    match m [] with
    | some (_, cap) => some (([] : List Char), cap)
    | none => none
  | c :: t =>
    match m (c :: t) with
    | some (rest, cap) => some ((c :: t).take ((c :: t).length - rest.length), cap)
    | none => scanFirst m t

/-- The test `/K\s*WORDS?/i.test(match[0])` of line 370. -/
def kWordTest : List Char → Bool
  | [] => false
  | c :: rest =>
    (isKChar c && (litCI ("WORD".toList) (skipWs rest)).isSome) || kWordTest rest

/-- The test `originalText.toUpperCase().includes('THESIS')` of line 374. -/
def thesisTest (s : List Char) : Bool := containsSeq ("THESIS".toList) (toUpperList s)

/-- `parseFloat(match[1].replace(/,/g, ''))` as an exact rational
`(numerator, denominator)`; `none` models `NaN` (an all-comma integer part
with no fraction).  `parseFloat` is exact on the instruction-sized numbers
quantified over here (at most 15 digits, below `2^53`). -/
def numValue (cap : NumCap) : Option (Nat × Nat) :=
  let ip := cap.intPart.filter (fun c => c != ',')
  if ip = [] ∧ cap.fracPart = [] then none
  else
    some (digitsToNat ip * 10 ^ cap.fracPart.length + digitsToNat cap.fracPart,
      10 ^ cap.fracPart.length)

/-- Lines 367-377: scale by 1000 when `match[0]` passes the `K` test, apply
the below-500-with-THESIS heuristic, and `Math.round` the result.  `none`
propagates `NaN` (falsy downstream, like the `null` default). -/
def computeTarget (m0 : List Char) (cap : NumCap) (full : List Char) : Option Int :=
  match numValue cap with
  | none => none
  | some (n, d) =>
    let n1 := if kWordTest m0 then n * 1000 else n
    let n2 := if n1 < 500 * d ∧ thesisTest full then n1 * 1000 else n1
    some (((2 * n2 + d) / (2 * d) : Nat) : Int)

/-- The ten word-count patterns of lines 352-363, in priority order. -/
def wordCountMatchers : List (List Char → Option (List Char × NumCap)) :=
  [ matchExpandAt,
    matchNumThenAt
      [ "THESIS".toList, "DISSERTATION".toList, "ESSAY".toList, "DOCUMENT".toList,
        "LENGTH".toList, "TREATISE".toList, "PAPER".toList, "SCHOLARLY".toList ],
    matchKwOfNumAt
      [ "THESIS".toList, "DISSERTATION".toList, "ESSAY".toList, "DOCUMENT".toList,
        "TREATISE".toList, "PAPER".toList ] ("OF".toList),
    matchKwOfNumAt [ "TARGET".toList ] ("OF".toList),
    matchNumThenAt [ "TOTAL".toList ],
    matchTurnIntoAt,
    matchVerbNumAt ("WRITE".toList),
    matchVerbNumAt ("GENERATE".toList),
    matchVerbNumAt ("PRODUCE".toList),
    matchVerbNumAt ("CREATE".toList) ]

/-- The word-count extraction loop of lines 365-381: the first pattern with a
match anywhere in the instruction text determines the target (and the loop
breaks even when the computed value is `NaN`). -/
def parseTargetGo (s : List Char) :
    List (List Char → Option (List Char × NumCap)) → Option Int
  | [] => none
  | m :: rest =>
    match scanFirst m s with
    | some (m0, cap) => computeTarget m0 cap s
    | none => parseTargetGo s rest

def parseTargetWordCount (s : List Char) : Option Int :=
  parseTargetGo s wordCountMatchers

/-! ### A small backtracking matcher algebra for the remaining patterns

The structure/citation/dialogue/constraint regexes are embedded with a
nondeterministic matcher: a matcher maps an input suffix to the list of
`(remaining suffix, captured groups)` outcomes in backtracking priority
order (greedy sub-matchers yield longest-first, lazy ones shortest-first,
alternations left-first, optionals presence-first), so the head of the
final outcome list is the match JS would produce.  Captures never nest in
the embedded patterns, so `rxCap` appends its span after the inner
outcome's captures in source order. -/

def RxM : Type := List Char → List (List Char × List (List Char))

def rxEps : RxM := fun s => [(s, [])]

def rxSeq (a b : RxM) : RxM := fun s =>
  (a s).flatMap (fun p => (b p.1).map (fun q => (q.1, p.2 ++ q.2)))

def rxSeqs (l : List RxM) : RxM := l.foldr rxSeq rxEps

def rxLit (pat : List Char) : RxM := fun s =>
  match litCI pat s with
  | some r => [(r, [])]
  | none => []

def rxAlts (l : List RxM) : RxM := fun s => (l.map (fun m => m s)).flatten

def rxOpt (a : RxM) : RxM := fun s => a s ++ [(s, [])]

def rxChar (p : Char → Bool) : RxM := fun s =>
  match s with
  | c :: r => if p c then [(r, [])] else []
  | [] => []

def rxStarGreedy (p : Char → Bool) : RxM := fun s =>
  let n := (s.takeWhile p).length
  (List.range (n + 1)).map (fun j => (s.drop (n - j), []))

def rxPlusGreedy (p : Char → Bool) : RxM := fun s =>
  let n := (s.takeWhile p).length
  (List.range n).map (fun j => (s.drop (n - j), []))

def rxStarLazy (p : Char → Bool) : RxM := fun s =>
  let n := (s.takeWhile p).length
  (List.range (n + 1)).map (fun j => (s.drop j, []))

def rxPlusLazy (p : Char → Bool) : RxM := fun s =>
  let n := (s.takeWhile p).length
  (List.range n).map (fun j => (s.drop (j + 1), []))

def rxEnd : RxM := fun s =>
  match s with
  | [] => [([], [])]
  | _ :: _ => []

def rxNl : RxM := fun s =>
  match s with
  | c :: r => if c == '\n' then [(r, [])] else []
  | [] => []

def rxCap (a : RxM) : RxM := fun s =>
  (a s).map (fun p => (p.1, p.2 ++ [s.take (s.length - p.1.length)]))

/-- Highest-priority match of `m` at the very start of `s`:
`(match[0], captures, rest)`. -/
def rxMatchAt (m : RxM) (s : List Char) :
    Option (List Char × List (List Char) × List Char) :=
  match m s with
  | [] => none
  | p :: _ => some (s.take (s.length - p.1.length), p.2, p.1)

/-- One attempt at the current position; `anchored` models the `^`/`m`
combination (a match may start only at a line start).  Zero-length matches
are rejected (none of the embedded patterns can produce one; this mirrors
the `lastIndex` progress a JS `exec` loop relies on). -/
def rxTryAt (m : RxM) (anchored : Bool) (s : List Char) (ls : Bool) :
    Option (List Char × List (List Char) × List Char) :=
  if anchored && !ls then none
  else
    match rxMatchAt m s with
    | some (m0, caps, rest) => if m0.isEmpty then none else some (m0, caps, rest)
    | none => none

/-- Leftmost match from the current position; `ls` says whether the position
is a line start. -/
def rxScanAux (m : RxM) (anchored : Bool) :
    List Char → Bool → Option (List Char × List (List Char) × List Char)
  | [], ls => rxTryAt m anchored [] ls
  | c :: t, ls =>
    match rxTryAt m anchored (c :: t) ls with
    | some r => some r
    | none => rxScanAux m anchored t (c == '\n')

def rxScan (m : RxM) (anchored : Bool) (s : List Char) :
    Option (List Char × List (List Char) × List Char) :=
  rxScanAux m anchored s true

/-- All matches in document order, continuing after each `match[0]` (the
`while (pattern.exec(text))` loops over the `/g` patterns). -/
def rxFindAllAux (m : RxM) (anchored : Bool) :
    Nat → List Char → Bool → List (List Char × List (List Char))
  | 0, _, _ => []
  | fuel + 1, s, ls =>
    match rxScanAux m anchored s ls with
    | none => []
    | some (m0, caps, rest) =>
      let ls2 := match m0.getLast? with
        | some c => c == '\n'
        | none => ls
      (m0, caps) :: rxFindAllAux m anchored fuel rest ls2

def rxFindAll (m : RxM) (anchored : Bool) (s : List Char) :
    List (List Char × List (List Char)) :=
  rxFindAllAux m anchored (s.length + 1) s true

/-! Character classes used by the structure patterns. -/

def isBulletChar (c : Char) : Bool := c == '-' || c == '•' || c == '*'

def isSepChar (c : Char) : Bool := c == ':' || c == '-' || c == '–' || c == '—'

def isLetterChar (c : Char) : Bool :=
  (decide (65 ≤ c.toNat) && decide (c.toNat ≤ 90)) ||
    (decide (97 ≤ c.toNat) && decide (c.toNat ≤ 122))

def isLetterWs (c : Char) : Bool := isLetterChar c || isWsChar c

def isLetterWsColon (c : Char) : Bool := isLetterChar c || isWsChar c || c == ':'

def isRomanChar (c : Char) : Bool :=
  let u := upperChar c
  u == 'I' || u == 'V' || u == 'X' || u == 'L' || u == 'C' || u == 'D' || u == 'M'

def isDigitCommaDot (c : Char) : Bool := isDigitChar c || c == ',' || c == '.'

def isNotNlParen (c : Char) : Bool := !(c == '\n' || c == '(')

def isNotNl (c : Char) : Bool := c != '\n'

def isNotDot (c : Char) : Bool := c != '.'

def isNotRParen (c : Char) : Bool := c != ')'

/-- `\s*`. -/
def rxWs : RxM := rxStarGreedy isWsChar

/-- `\s+`. -/
def rxWsPlus : RxM := rxPlusGreedy isWsChar

/-- The word-count capture `([\d,.]+k?)` of the structure patterns. -/
def rxWordCnt : RxM := rxCap (rxSeq (rxPlusGreedy isDigitCommaDot) (rxOpt (rxChar isKChar)))

/-- `words?`. -/
def rxWordsLit : RxM :=
  rxSeq (rxLit ("WORD".toList)) (rxOpt (rxChar (fun c => ciEqChar c 'S')))

/-- `\(\s*([\d,.]+k?)\s*words?\s*\)`. -/
def rxParenWc : RxM :=
  rxSeqs [rxChar (fun c => c == '('), rxWs, rxWordCnt, rxWs, rxWordsLit, rxWs,
    rxChar (fun c => c == ')')]

/-- `Ch\.?` / `Sec\.?`. -/
def rxChDot : RxM := rxSeq (rxLit ("Ch".toList)) (rxOpt (rxChar (fun c => c == '.')))

def rxSecDot : RxM := rxSeq (rxLit ("Sec".toList)) (rxOpt (rxChar (fun c => c == '.')))

/-! ### Structure extraction (lines 383-512) -/

/-- `parseWordCountFromString` (lines 309-317): first look for shorthand
`/([\d.]+)\s*k/i` anywhere in the string (1000× the parsed float), else
`parseInt` after stripping commas.  `0` stands in for the `NaN` a
digit-free capture would produce in JS (unreachable from the structure
patterns, whose captures contain at least one digit, comma or dot). -/
def parseFloatVal (l : List Char) : Option (Nat × Nat) :=
  let ip := l.takeWhile isDigitChar
  let r := l.drop ip.length
  match r with
  | '.' :: r2 =>
    let fp := r2.takeWhile isDigitChar
    if ip = [] ∧ fp = [] then none
    else some (digitsToNat ip * 10 ^ fp.length + digitsToNat fp, 10 ^ fp.length)
  | _ => if ip = [] then none else some (digitsToNat ip, 1)

/-- First match of `/([\d.]+)\s*k/i`: a maximal `[\d.]+` run followed by
optional whitespace and `k` (shorter runs resume at digits or dots, which
are neither whitespace nor `k`, so the greedy run is deterministic). -/
def kShorthandScan : List Char → Option (List Char)
  | [] => none
  | c :: t =>
    let run := (c :: t).takeWhile (fun d => isDigitChar d || d == '.')
    let after := (c :: t).drop run.length
    let kNext : Bool := match skipWs after with
      | d :: _ => isKChar d
      | [] => false
    if !run.isEmpty && kNext then some run
    else kShorthandScan t

def parseWordCountFromString (l : List Char) : Int :=
  match kShorthandScan l with
  | some cap =>
    match parseFloatVal cap with
    | some (n, d) => (((2 * (n * 1000) + d) / (2 * d) : Nat) : Int)
    | none => 0
  | none =>
    let stripped := l.filter (fun c => c != ',')
    let ds := (stripped.dropWhile isWsChar).takeWhile isDigitChar
    if ds = [] then 0 else (digitsToNat ds : Int)

/-- `romanToArabic` (lines 394-409): standard subtractive evaluation, summing
each symbol positively unless the next symbol is strictly larger; unknown
characters count 0. -/
def romanCharVal (c : Char) : Int :=
  match upperChar c with
  | 'I' => 1
  | 'V' => 5
  | 'X' => 10
  | 'L' => 50
  | 'C' => 100
  | 'D' => 500
  | 'M' => 1000
  | _ => 0

def romanToArabicInt : List Char → Int
  | [] => 0
  | c :: rest =>
    let cur := romanCharVal c
    let nxt := match rest with
      | d :: _ => romanCharVal d
      | [] => 0
    (if cur < nxt then -cur else cur) + romanToArabicInt rest

/-- The source helper returns the decimal string of the computed value. -/
def romanToArabic (l : List Char) : List Char := (toString (romanToArabicInt l)).toList

/-- `addSection` (lines 387-392): de-duplicate by testing whether any
already-added section's uppercased name contains the first 15 characters of
the new section's trimmed uppercased name; first occurrence wins. -/
def addSection (st : List SectionSpec) (nm : List Char) (wc : Int) : List SectionSpec :=
  let trimmed := trimChars nm
  let key := (toUpperList trimmed).take 15
  if st.any (fun s => containsSeq key (toUpperList s.name.data)) then st
  else st ++ [{ name := String.mk trimmed, wordCount := wc }]

/-- `CHAPTER ${num}: ${title}` with the title-empty fallback of the
with-word-count chapter handlers (lines 437 and 448). -/
def chapterFullName (num title : List Char) : List Char :=
  let t := trimChars title
  if t = [] then ("CHAPTER ".toList) ++ num
  else ("CHAPTER ".toList) ++ num ++ (": ".toList) ++ t

/-- Roman-numeral chapter patterns (lines 425-428). -/
def romanChapterPatterns : List RxM :=
  [ rxSeqs [rxOpt (rxChar isBulletChar), rxWs, rxAlts [rxLit ("CHAPTER".toList),
      rxLit ("SECTION".toList)], rxWs, rxCap (rxPlusGreedy isRomanChar), rxWs,
      rxChar isSepChar, rxWs,
      rxCap (rxSeq (rxChar isLetterChar) (rxStarLazy isNotNlParen)), rxWs, rxParenWc],
    rxSeqs [rxOpt (rxChar isBulletChar), rxWs, rxAlts [rxLit ("CHAPTER".toList),
      rxLit ("SECTION".toList)], rxWs, rxCap (rxPlusGreedy isRomanChar), rxWs,
      rxChar isSepChar, rxWs,
      rxCap (rxSeq (rxChar isLetterChar) (rxPlusLazy isLetterWs)), rxWs,
      rxChar isSepChar, rxWs, rxWordCnt, rxWs, rxWordsLit] ]

/-- Arabic chapter patterns (lines 415-422). -/
def chapterPatterns : List RxM :=
  [ rxSeqs [rxOpt (rxChar isBulletChar), rxWs, rxAlts [rxLit ("CHAPTER".toList),
      rxLit ("SECTION".toList), rxChDot, rxSecDot], rxWs,
      rxCap (rxPlusGreedy isDigitChar), rxWs, rxOpt (rxChar isSepChar), rxWs,
      rxCap (rxSeq (rxChar isLetterChar) (rxStarLazy isNotNlParen)), rxWs, rxParenWc],
    rxSeqs [rxAlts [rxLit ("CHAPTER".toList), rxLit ("SECTION".toList)], rxWs,
      rxCap (rxPlusGreedy isDigitChar), rxWs, rxChar isSepChar, rxWs,
      rxCap (rxPlusLazy isNotNlParen), rxWs, rxParenWc],
    rxSeqs [rxOpt (rxChar isBulletChar), rxWs, rxAlts [rxLit ("CHAPTER".toList),
      rxLit ("SECTION".toList), rxChDot, rxSecDot], rxWs,
      rxCap (rxPlusGreedy isDigitChar), rxWs, rxChar isSepChar, rxWs,
      rxCap (rxSeq (rxChar isLetterChar) (rxPlusLazy isLetterWs)), rxWs,
      rxChar isSepChar, rxWs, rxWordCnt, rxWs, rxWordsLit],
    rxSeqs [rxAlts [rxLit ("CHAPTER".toList), rxLit ("SECTION".toList)], rxWs,
      rxCap (rxPlusGreedy isDigitChar), rxWs, rxChar isSepChar, rxWs,
      rxCap (rxPlusLazy isNotNl), rxWs, rxChar isSepChar, rxWs, rxWordCnt, rxWs,
      rxWordsLit] ]

/-- The optional recognized name suffix of the named-section patterns. -/
def rxSectionSuffix : RxM :=
  rxOpt (rxAlts [rxLit ("REVIEW".toList), rxLit ("DUCTION".toList),
    rxLit ("CLUSION".toList), rxLit ("TRACT".toList), rxLit ("THESIS".toList),
    rxLit ("OLOGY".toList), rxLit ("ICATION".toList), rxLit ("YSIS".toList),
    rxLit ("SSION".toList)])

/-- Named-section patterns (lines 456-463) paired with their `^`(multiline)
anchoring; all four carry the `i` flag, so the `[A-Z...]` classes match both
cases. -/
def sectionPatterns : List (RxM × Bool) :=
  [ (rxSeqs [rxOpt (rxChar isBulletChar), rxWs,
      rxCap (rxSeqs [rxChar isLetterChar, rxPlusGreedy isLetterWs, rxSectionSuffix]),
      rxWs, rxParenWc], false),
    (rxSeqs [rxStarGreedy isWsChar,
      rxCap (rxSeq (rxChar isLetterChar) (rxPlusGreedy isLetterWsColon)),
      rxWs, rxParenWc], true),
    (rxSeqs [rxOpt (rxChar isBulletChar), rxWs,
      rxCap (rxSeqs [rxChar isLetterChar, rxPlusGreedy isLetterWs, rxSectionSuffix]),
      rxWs, rxChar isSepChar, rxWs, rxWordCnt, rxWs, rxWordsLit], false),
    (rxSeqs [rxStarGreedy isWsChar,
      rxCap (rxSeq (rxChar isLetterChar) (rxPlusGreedy isLetterWs)),
      rxWs, rxChar isSepChar, rxWs, rxWordCnt, rxWs, rxWordsLit], true) ]

/-- The abbreviation pattern (line 492). -/
def abbreviationPattern : RxM :=
  rxSeqs [rxOpt (rxChar isBulletChar), rxWs,
    rxCap (rxAlts [rxLit ("INTRO".toList),
      rxSeqs [rxLit ("LIT".toList), rxOpt (rxChar (fun c => c == '.')), rxWs,
        rxLit ("REVIEW".toList)],
      rxSeqs [rxLit ("LITERATURE".toList), rxWs, rxLit ("REV".toList)],
      rxLit ("CONCL".toList), rxLit ("METH".toList), rxLit ("DISCUSS".toList),
      rxLit ("RESULTS".toList),
      rxSeq (rxLit ("ABS".toList)) (rxOpt (rxLit ("TRACT".toList)))]),
    rxWs, rxParenWc]

/-- The no-word-count chapter pattern (line 502). -/
def chapterNoWordPattern : RxM :=
  rxSeqs [rxOpt (rxChar isBulletChar), rxWs, rxAlts [rxLit ("CHAPTER".toList), rxChDot],
    rxWs, rxCap (rxPlusGreedy isDigitChar), rxWs, rxChar isSepChar, rxWs,
    rxCap (rxPlusLazy isNotNlParen), rxAlts [rxNl, rxEnd]]

/-- `replace(/\s+/g, ' ')`. -/
def collapseWsAux : List Char → Bool → List Char
  | [], _ => []
  | c :: rest, prevWs =>
    if isWsChar c then
      if prevWs then collapseWsAux rest true else ' ' :: collapseWsAux rest true
    else c :: collapseWsAux rest false

def collapseWs (l : List Char) : List Char := collapseWsAux l false

/-- The abbreviation lookup table (lines 479-490). -/
def abbreviationMap : List (List Char × List Char) :=
  [ ("INTRO".toList, "INTRODUCTION".toList),
    ("LIT REVIEW".toList, "LITERATURE REVIEW".toList),
    ("LIT. REVIEW".toList, "LITERATURE REVIEW".toList),
    ("LITERATURE REV".toList, "LITERATURE REVIEW".toList),
    ("CONCL".toList, "CONCLUSION".toList),
    ("METH".toList, "METHODOLOGY".toList),
    ("DISCUSS".toList, "DISCUSSION".toList),
    ("RESULTS".toList, "RESULTS".toList),
    ("ABSTRACT".toList, "ABSTRACT".toList),
    ("ABS".toList, "ABSTRACT".toList) ]

def lookupAbbreviation (abbr : List Char) : List Char :=
  match abbreviationMap.find? (fun p => p.1 == abbr) with
  | some p => p.2
  | none => abbr

/-- The whole structure extraction of `parseExpansionInstructions`
(lines 411-512), in source order: roman chapter patterns, arabic chapter
patterns, named-section patterns (skipping names containing `CHAPTER`),
abbreviations, then numbered chapters without word counts (guarded by a
`CHAPTER <n>` containment check and added with word count 0). -/
def parseStructure (s : List Char) : List SectionSpec :=
  let st1 := romanChapterPatterns.foldl (fun st pat =>
    (rxFindAll pat false s).foldl (fun st hit =>
      match hit.2 with
      | [roman, title, wcs] =>
        addSection st (chapterFullName (romanToArabic roman) title)
          (parseWordCountFromString wcs)
      | _ => st) st) []
  let st2 := chapterPatterns.foldl (fun st pat =>
    (rxFindAll pat false s).foldl (fun st hit =>
      match hit.2 with
      | [num, title, wcs] =>
        addSection st (chapterFullName num title) (parseWordCountFromString wcs)
      | _ => st) st) st1
  let st3 := sectionPatterns.foldl (fun st pat =>
    (rxFindAll pat.1 pat.2 s).foldl (fun st hit =>
      match hit.2 with
      | [nm, wcs] =>
        let snUp := toUpperList (trimChars nm)
        if containsSeq ("CHAPTER".toList) snUp then st
        else addSection st snUp (parseWordCountFromString wcs)
      | _ => st) st) st2
  let st4 := (rxFindAll abbreviationPattern false s).foldl (fun st hit =>
    match hit.2 with
    | [abbr, wcs] =>
      let key := trimChars (collapseWs (toUpperList abbr))
      addSection st (lookupAbbreviation key) (parseWordCountFromString wcs)
    | _ => st) st3
  (rxFindAll chapterNoWordPattern false s).foldl (fun st hit =>
    match hit.2 with
    | [num, title] =>
      if st.any (fun sp =>
          containsSeq (("CHAPTER ".toList) ++ num) (toUpperList sp.name.data)) then st
      else addSection st (("CHAPTER ".toList) ++ num ++ (": ".toList) ++ trimChars title) 0
    | _ => st) st4

/-! ### Citations, philosophers, style flags, dialogue, constraints
(lines 514-585) -/

structure CitationReq where
  ctype : String
  count : Int
  timeframe : Option String
deriving DecidableEq

/-- `ARTICLES?` and friends. -/
def rxLitSOpt (w : List Char) : RxM :=
  rxSeq (rxLit w) (rxOpt (rxChar (fun c => ciEqChar c 'S')))

/-- The citation patterns of lines 515-519, in priority order. -/
def citationPatterns : List RxM :=
  [ rxSeqs [rxAlts [rxLit ("REFERENCE".toList), rxLit ("CITE".toList)], rxWs,
      rxOpt (rxSeq (rxLit ("THE".toList)) rxWs), rxLit ("TOP".toList), rxWs,
      rxCap (rxPlusGreedy isDigitChar), rxWs,
      rxOpt (rxSeq (rxLit ("JOURNAL".toList)) rxWs), rxLitSOpt ("ARTICLE".toList)],
    rxSeqs [rxCap (rxPlusGreedy isDigitChar), rxWs,
      rxOpt (rxSeq (rxLit ("JOURNAL".toList)) rxWs),
      rxAlts [rxLitSOpt ("ARTICLE".toList), rxLitSOpt ("SOURCE".toList),
        rxLitSOpt ("REFERENCE".toList), rxLitSOpt ("CITATION".toList)]],
    rxSeqs [rxLit ("TOP".toList), rxWs, rxCap (rxPlusGreedy isDigitChar), rxWs,
      rxOpt (rxSeq (rxLit ("JOURNAL".toList)) rxWs), rxLitSOpt ("ARTICLE".toList)] ]

/-- `(?:FROM\s*)?(?:THE\s*)?(?:LAST|PAST)\s*(\d+)\s*YEARS?` (line 530). -/
def timeframePattern : RxM :=
  rxSeqs [rxOpt (rxSeq (rxLit ("FROM".toList)) rxWs),
    rxOpt (rxSeq (rxLit ("THE".toList)) rxWs),
    rxAlts [rxLit ("LAST".toList), rxLit ("PAST".toList)], rxWs,
    rxCap (rxPlusGreedy isDigitChar), rxWs, rxLitSOpt ("YEAR".toList)]

def citationGo (s : List Char) : List RxM → Option CitationReq
  | [] => none
  | pat :: rest =>
    match rxScan pat false s with
    | some (_, [digits], _) =>
      let tf : Option String :=
        match rxScan timeframePattern false s with
        | some (_, [tfd], _) =>
          some (String.mk (("last ".toList) ++ tfd ++ (" years".toList)))
        | _ => none
      some
        { ctype := "journal_articles", count := (digitsToNat digits : Int),
          timeframe := tf }
    | _ => citationGo s rest

def parseCitations (s : List Char) : Option CitationReq := citationGo s citationPatterns

/-- `(?:CITE|REFERENCE)\s*(?:RELEVANT\s*)?PHILOSOPHERS?\s*\(([^)]+)\)` (line 539). -/
def philosopherPattern : RxM :=
  rxSeqs [rxAlts [rxLit ("CITE".toList), rxLit ("REFERENCE".toList)], rxWs,
    rxOpt (rxSeq (rxLit ("RELEVANT".toList)) rxWs), rxLitSOpt ("PHILOSOPHER".toList),
    rxWs, rxChar (fun c => c == '('), rxCap (rxPlusGreedy isNotRParen),
    rxChar (fun c => c == ')')]

/-- `split(/,\s*/)` (line 542). -/
def splitCommaWsAux : Nat → List Char → List Char → List (List Char)
  | 0, acc, _ => [acc.reverse]
  | _ + 1, acc, [] => [acc.reverse]
  | fuel + 1, acc, c :: t =>
    if c == ',' then acc.reverse :: splitCommaWsAux fuel [] (t.dropWhile isWsChar)
    else splitCommaWsAux fuel (c :: acc) t

def splitCommaWs (l : List Char) : List (List Char) :=
  splitCommaWsAux (l.length + 1) [] l

/-- The fixed fallback list of line 545; scanned case-sensitively with
`originalText.includes(phil)`. -/
def knownPhilosophers : List String :=
  ["Searle", "Chalmers", "Nagel", "Dennett", "Kim", "Block", "Fodor", "Putnam",
    "Jackson", "Levine"]

def parsePhilosophers (s : List Char) : List String :=
  match rxScan philosopherPattern false s with
  | some (_, [inner], _) => (splitCommaWs inner).map (fun p => String.mk (trimChars p))
  | _ => knownPhilosophers.filter (fun phil => containsSeq phil.data s)

/-- The style-flag tests of lines 554-557, run against the uppercased text. -/
def academicRegisterPattern : RxM :=
  rxSeqs [rxLit ("ACADEMIC".toList), rxWs, rxLit ("REGISTER".toList)]

def noBulletPattern : RxM :=
  rxAlts [rxSeqs [rxLit ("NO".toList), rxWs, rxLit ("BULLET".toList), rxWs,
      rxLitSOpt ("POINT".toList)],
    rxSeqs [rxLit ("FULL".toList), rxWs, rxLit ("PROSE".toList)]]

def internalSubsectionsPattern : RxM :=
  rxAlts [rxSeqs [rxLit ("INTERNAL".toList), rxWs, rxLitSOpt ("SUBSECTION".toList)],
    rxSeqs [rxLit ("EACH".toList), rxWs, rxLit ("CHAPTER".toList), rxWs,
      rxOpt (rxSeq (rxLit ("MUST".toList)) rxWs), rxLit ("HAVE".toList), rxWs,
      rxOpt (rxSeq (rxLit ("INTERNAL".toList)) rxWs), rxLitSOpt ("SUBSECTION".toList)]]

def literatureReviewPattern : RxM :=
  rxSeqs [rxLit ("LITERATURE".toList), rxWs, rxLit ("REVIEW".toList)]

def rxTest (m : RxM) (s : List Char) : Bool := (rxScan m false s).isSome

/-- Word characters for the `\b` boundaries of the dialogue keyword test. -/
def isWordChar (c : Char) : Bool := isLetterChar c || isDigitChar c || c == '_'

def bdryAfter : List Char → Bool
  | [] => true
  | c :: _ => !(isWordChar c)

/-- One alternative of
`\bDIALOGUE\b|\bCONVERSATION\b|\bDISCUSSION\s+BETWEEN\b|\bDEBATE\s+BETWEEN\b`
tested at the current position (line 560). -/
def dialogueAltTest (s : List Char) : Bool :=
  (match litCI ("DIALOGUE".toList) s with
    | some r => bdryAfter r
    | none => false) ||
  (match litCI ("CONVERSATION".toList) s with
    | some r => bdryAfter r
    | none => false) ||
  (match litCI ("DISCUSSION".toList) s with
    | some r =>
      match r with
      | c :: _ =>
        isWsChar c &&
          (match litCI ("BETWEEN".toList) (skipWs r) with
            | some r2 => bdryAfter r2
            | none => false)
      | [] => false
    | none => false) ||
  (match litCI ("DEBATE".toList) s with
    | some r =>
      match r with
      | c :: _ =>
        isWsChar c &&
          (match litCI ("BETWEEN".toList) (skipWs r) with
            | some r2 => bdryAfter r2
            | none => false)
      | [] => false
    | none => false)

def dialogueKwAux : Bool → List Char → Bool
  | _, [] => false
  | prevW, c :: t => (!prevW && dialogueAltTest (c :: t)) || dialogueKwAux (isWordChar c) t

def dialogueKwTest (s : List Char) : Bool := dialogueKwAux false s

/-- The character-extraction pattern of line 563:
`(?:DIALOGUE|CONVERSATION|DISCUSSION|DEBATE)\s+BETWEEN\s+([^.]+?)(?:ON|ABOUT|REGARDING|CONCERNING|$)`. -/
def dialogueCharPattern : RxM :=
  rxSeqs [rxAlts [rxLit ("DIALOGUE".toList), rxLit ("CONVERSATION".toList),
      rxLit ("DISCUSSION".toList), rxLit ("DEBATE".toList)], rxWsPlus,
    rxLit ("BETWEEN".toList), rxWsPlus, rxCap (rxPlusLazy isNotDot),
    rxAlts [rxLit ("ON".toList), rxLit ("ABOUT".toList), rxLit ("REGARDING".toList),
      rxLit ("CONCERNING".toList), rxEnd]]

/-- `split(/\s+AND\s+/i)` (line 568). -/
def splitAndAux : Nat → List Char → List Char → List (List Char)
  | 0, acc, _ => [acc.reverse]
  | _ + 1, acc, [] => [acc.reverse]
  | fuel + 1, acc, c :: t =>
    if isWsChar c then
      match litCI ("AND".toList) (skipWs (c :: t)) with
      | some r2 =>
        match r2 with
        | d :: _ =>
          if isWsChar d then acc.reverse :: splitAndAux fuel [] (skipWs r2)
          else splitAndAux fuel (c :: acc) t
        | [] => splitAndAux fuel (c :: acc) t
      | none => splitAndAux fuel (c :: acc) t
    else splitAndAux fuel (c :: acc) t

def splitAnd (l : List Char) : List (List Char) := splitAndAux (l.length + 1) [] l

/-- Lines 563-570: the `BETWEEN` clause forces dialogue mode and yields the
participant names (split on `AND`, trimmed, empties dropped). -/
def parseDialogueCharacters (s : List Char) : Option (List String) :=
  match rxScan dialogueCharPattern false s with
  | some (_, [inner], _) =>
    some (((splitAnd (trimChars inner)).map (fun c => String.mk (trimChars c))).filter
      (fun c => !c.isEmpty))
  | _ => none

/-- The constraint patterns of lines 573-578 (`/gi`, every match collected,
trimmed, in pattern order). -/
def constraintKeywords : List (List Char) :=
  [ "MAINTAIN".toList, "MUST".toList, "IDENTIFY".toList, "STATE".toList ]

def constraintPattern (kw : List Char) : RxM :=
  rxSeqs [rxLit kw, rxWsPlus, rxPlusGreedy isNotDot]

def parseConstraints (s : List Char) : List String :=
  constraintKeywords.foldl (fun acc kw =>
    acc ++ (rxFindAll (constraintPattern kw) false s).map
      (fun hit => String.mk (trimChars hit.1))) []

/-! ### The full `parseExpansionInstructions` record and its cache
(lines 90-91, 322-597) -/

/-- The `ParsedInstructions` interface (lines 57-69).  The `structure` field
is named `structureList` (`structure` is a Lean keyword). -/
structure ParsedInstructions where
  targetWordCount : Option Int
  structureList : List SectionSpec
  constraints : List String
  citations : Option CitationReq
  academicRegister : Bool
  noBulletPoints : Bool
  internalSubsections : Bool
  literatureReview : Bool
  philosophersToReference : List String
  dialogueFormat : Bool
  dialogueCharacters : List String
deriving DecidableEq

/-- The default result record of lines 328-340. -/
def emptyParsed : ParsedInstructions :=
  { targetWordCount := none, structureList := [], constraints := [], citations := none,
    academicRegister := false, noBulletPoints := false, internalSubsections := false,
    literatureReview := false, philosophersToReference := [], dialogueFormat := false,
    dialogueCharacters := [] }

/-- The pure parsing work of `parseExpansionInstructions` (everything except
the cache): each field is computed by an independent matcher group over the
raw text (or its uppercased copy `text`), exactly as the sequential field
assignments of lines 328-591 do. -/
def parseExpansionInstructionsPure (instr : String) : ParsedInstructions :=
  if instr = "" then emptyParsed
  else
    let l := instr.data
    let up := toUpperList l
    let dlg := parseDialogueCharacters l
    { targetWordCount := parseTargetWordCount l,
      structureList := parseStructure l,
      constraints := parseConstraints l,
      citations := parseCitations l,
      academicRegister := rxTest academicRegisterPattern up,
      noBulletPoints := rxTest noBulletPattern up,
      internalSubsections := rxTest internalSubsectionsPattern up,
      literatureReview := rxTest literatureReviewPattern up,
      philosophersToReference := parsePhilosophers l,
      dialogueFormat := dialogueKwTest up || dlg.isSome,
      dialogueCharacters := dlg.getD [] }

/-- The process-wide memoization cache of line 91 (`Map<string,
ParsedInstructions>`), as explicit state: an association list keyed by the
verbatim instruction string. -/
abbrev ParseCache : Type := List (String × ParsedInstructions)

def cacheLookup (c : ParseCache) (s : String) : Option ParsedInstructions :=
  match c.find? (fun p => p.1 == s) with
  | some p => some p.2
  | none => none

structure ParseOut where
  value : ParsedInstructions
  cache : ParseCache
  recomputed : Bool

/-- `parseExpansionInstructions` (lines 322-597): serve a cached value
verbatim when present (without re-running any matcher — `recomputed` records
whether the matchers ran), else parse and store. -/
def parseWithCache (c : ParseCache) (s : String) : ParseOut :=
  match cacheLookup c s with
  | some v => { value := v, cache := c, recomputed := false }
  | none =>
    let v := parseExpansionInstructionsPure s
    { value := v, cache := (s, v) :: c, recomputed := true }

/-- Overwrite the cache entry for `s` (the observable effect of mutating the
shared `ParsedInstructions` object the cache and the caller both alias). -/
def cacheUpdate (c : ParseCache) (s : String) (v : ParsedInstructions) : ParseCache :=
  c.map (fun p => if p.1 == s then (p.1, v) else p)

/-- JS truthiness for `parsed.targetWordCount || request.targetWordCount`
(line 1236): `null` and `0` are falsy. -/
def truthyTarget : Option Int → Option Int
  | some v => if v = 0 then none else some v
  | none => none

/-- Target resolution of lines 1236-1241: parsed target, else the request
target, else `Math.max(inputWordCount * 10, 5000)`. -/
def resolveTarget (p r : Option Int) (inputWC : Int) : Int :=
  match truthyTarget p with
  | some t => t
  | none =>
    match truthyTarget r with
    | some t => t
    | none => max (inputWC * 10) 5000

structure ExpandStep where
  plan : List SectionSpec
  cache : ParseCache

/-- The structure-building step of `universalExpand` (lines 1231-1311): parse
the instructions (through the cache), resolve the target, and either
synthesize a structure table (leaving the cached value untouched) or
even-distribute the remaining budget over the user structure's zero-count
sections.  The distribution of lines 1300-1310 mutates the section objects of
`parsed.structure` in place; since those objects live in the cached
`ParsedInstructions`, the mutation is modelled as a cache update. -/
def expandStructureStep (c : ParseCache) (instr : String) (reqTarget : Option Int)
    (inputWC : Int) : ExpandStep :=
  let pr := parseWithCache c instr
  let parsed := pr.value
  let target := resolveTarget parsed.targetWordCount reqTarget inputWC
  if parsed.structureList.isEmpty then
    { plan := if 50000 ≤ target then largeTargetStructure target
        else standardStructure target,
      cache := pr.cache }
  else
    { plan := distributeStructure target parsed.structureList,
      cache := cacheUpdate pr.cache instr
        { parsed with structureList := distributeStructure target parsed.structureList } }

lemma cacheLookup_cons_self (c : ParseCache) (s : String) (v : ParsedInstructions) :
    cacheLookup ((s, v) :: c) s = some v := by
  simp [cacheLookup]

lemma parseWithCache_lookup (c : ParseCache) (s : String) :
    cacheLookup (parseWithCache c s).cache s = some (parseWithCache c s).value := by
  cases h : cacheLookup c s with
  | some v => simp [parseWithCache, h]
  | none => simp [parseWithCache, h, cacheLookup_cons_self]

lemma parseWithCache_idem (c : ParseCache) (s : String) :
    parseWithCache (parseWithCache c s).cache s =
      { value := (parseWithCache c s).value, cache := (parseWithCache c s).cache,
        recomputed := false } := by
  have h := parseWithCache_lookup c s
  rw [parseWithCache, h]

lemma cacheLookup_update (c : ParseCache) (s : String) (v : ParsedInstructions)
    (h : (cacheLookup c s).isSome) :
    cacheLookup (cacheUpdate c s v) s = some v := by
  induction c with
  | nil => simp [cacheLookup] at h
  | cons p rest ih =>
    by_cases hp : p.1 == s
    · simp [cacheLookup, cacheUpdate, List.find?, hp]
    · have hp2 : (p.1 == s) = false := by
        cases hx : p.1 == s with
        | true => exact absurd hx hp
        | false => rfl
      have h2 : (cacheLookup rest s).isSome := by
        simpa [cacheLookup, List.find?, hp2] using h
      simpa [cacheLookup, cacheUpdate, List.find?, hp2] using ih h2

/-- C6: for every cache state and every instruction string, a second call to
`parseExpansionInstructions` with the same verbatim string returns the exact
value stored by the first call, leaves the cache untouched, and does not
re-run the pattern matchers (`recomputed = false`) — so repeated parses never
diverge. -/
theorem parse_memoized (c : ParseCache) (s : String) :
    (parseWithCache (parseWithCache c s).cache s).value = (parseWithCache c s).value ∧
    (parseWithCache (parseWithCache c s).cache s).cache = (parseWithCache c s).cache ∧
    (parseWithCache (parseWithCache c s).cache s).recomputed = false := by
  rw [parseWithCache_idem]
  exact ⟨rfl, rfl, rfl⟩

/-- The C7 counterexample instruction string: a target of 1000 words and one
chapter declared without an explicit word count. -/
def instrC7 : String := "EXPAND TO 1000 WORDS. CHAPTER 1: ALPHA"

/-- C7 counterexample: the first parse of `instrC7` yields section word counts
`[0]`; running the structure-building step of `universalExpand` and parsing
the same string again yields `[1000]` — the even-distribution step of lines
1300-1310 mutated the cached value, so a subsequent parse does not observe
the word counts the first parse returned. -/
theorem parsed_structure_mutated_by_expansion :
    ((parseWithCache ([] : ParseCache) instrC7).value.structureList.map
        (fun sp => sp.wordCount)) = [0] ∧
    ((parseWithCache
        (expandStructureStep (parseWithCache ([] : ParseCache) instrC7).cache instrC7
          none 38).cache instrC7).value.structureList.map (fun sp => sp.wordCount))
      = [1000] ∧
    ([(0 : Int)] : List Int) ≠ [1000] := by
  refine ⟨by rfl, by rfl, by decide⟩

/-- C7 (amended): `parseExpansionInstructions` itself never mutates cached
values (see the memoization theorem), but the `ParsedInstructions` value is
not immutable: when the parsed structure is nonempty, the even-distribution
step of `universalExpand` overwrites the structure entries of the cached
value in place, and every subsequent parse of the same string observes the
distributed word counts instead of the ones the original parse produced. -/
theorem parsed_instructions_not_immutable (c : ParseCache) (s : String)
    (req : Option Int) (inWC : Int)
    (hne : (parseWithCache c s).value.structureList.isEmpty = false) :
    (parseWithCache (expandStructureStep (parseWithCache c s).cache s req
        inWC).cache s).value =
      { (parseWithCache c s).value with
        structureList := distributeStructure
          (resolveTarget (parseWithCache c s).value.targetWordCount req inWC)
          (parseWithCache c s).value.structureList } ∧
    (parseWithCache (expandStructureStep (parseWithCache c s).cache s req
        inWC).cache s).recomputed = false := by
  have hidem := parseWithCache_idem c s
  have hstep : expandStructureStep (parseWithCache c s).cache s req inWC =
      { plan := distributeStructure
          (resolveTarget (parseWithCache c s).value.targetWordCount req inWC)
          (parseWithCache c s).value.structureList,
        cache := cacheUpdate (parseWithCache c s).cache s
          { (parseWithCache c s).value with
            structureList := distributeStructure
              (resolveTarget (parseWithCache c s).value.targetWordCount req inWC)
              (parseWithCache c s).value.structureList } } := by
    rw [expandStructureStep, hidem]
    simp [hne]
  rw [hstep]
  have hsome : (cacheLookup (parseWithCache c s).cache s).isSome := by
    rw [parseWithCache_lookup]
    rfl
  have hupd := cacheLookup_update (parseWithCache c s).cache s
    { (parseWithCache c s).value with
      structureList := distributeStructure
        (resolveTarget (parseWithCache c s).value.targetWordCount req inWC)
        (parseWithCache c s).value.structureList } hsome
  rw [parseWithCache, hupd]
  exact ⟨rfl, rfl⟩

/-- Witness for the amended C7 theorem at the concrete scenario of the
counterexample string, an empty initial cache, no request-level target, and
an input of 38 words. -/
theorem parsed_instructions_not_immutable_witness :
    (parseWithCache (expandStructureStep (parseWithCache ([] : ParseCache)
        instrC7).cache instrC7 none 38).cache instrC7).value =
      { (parseWithCache ([] : ParseCache) instrC7).value with
        structureList := distributeStructure
          (resolveTarget (parseWithCache ([] : ParseCache) instrC7).value.targetWordCount
            none 38)
          (parseWithCache ([] : ParseCache) instrC7).value.structureList } :=
  (parsed_instructions_not_immutable ([] : ParseCache) instrC7 none 38 (by rfl)).1

/-- C10: parsing `"CHAPTER IV: Methods (2,000 words)"` produces exactly one
section, named `CHAPTER 4: Methods` with word count 2000: the Roman numeral
is converted by standard subtractive notation, and the de-duplication of
`addSection` prevents the named-section matcher (which also sees
`Methods (2,000 words)`) from adding a duplicate. -/
theorem roman_chapter_parse :
    (parseExpansionInstructionsPure ("CHAPTER IV: Methods (2,000 words)")).structureList
      = [{ name := "CHAPTER 4: Methods", wordCount := 2000 }] ∧
    romanToArabic ("IV".toList) = ("4".toList) := by
  constructor
  · rfl
  · rfl

/-! ### The `EXPAND TO N WORDS` clause, for arbitrary digit strings (C4) -/

lemma ciEqChar_self (c : Char) : ciEqChar c c = true := by
  simp [ciEqChar]

lemma litCI_self (p t : List Char) : litCI p (p ++ t) = some t := by
  induction p with
  | nil => rfl
  | cons c ps ih => simp [litCI, ciEqChar_self, ih]

lemma takeWhile_append_of (p : Char → Bool) (r : List Char)
    (hr : ∀ c ∈ r.take 1, p c = false) :
    ∀ l : List Char, (∀ c ∈ l, p c = true) →
      (l ++ r).takeWhile p = l ∧ (l ++ r).dropWhile p = r := by
  intro l
  induction l with
  | nil =>
    intro _
    simp only [List.nil_append]
    cases r with
    | nil => simp
    | cons c t =>
      have hc := hr c (by simp)
      simp [List.takeWhile_cons, List.dropWhile_cons, hc]
  | cons c l ih =>
    intro hl
    have hc := hl c (by simp)
    have ih2 := ih (fun d hd => hl d (by simp [hd]))
    simp [List.takeWhile_cons, List.dropWhile_cons, hc, ih2.1, ih2.2]

lemma isDigit_not_ws {c : Char} (h : isDigitChar c = true) : isWsChar c = false := by
  simp [isDigitChar] at h
  simp [isWsChar]
  omega

lemma isDigit_not_K {c : Char} (h : isDigitChar c = true) : isKChar c = false := by
  simp [isKChar]
  constructor <;> rintro rfl <;> exact absurd h (by decide)

lemma isDigitComma_of_digit {c : Char} (h : isDigitChar c = true) :
    isDigitComma c = true := by
  simp [isDigitComma, h]

lemma upperChar_digit {c : Char} (h : isDigitChar c = true) : upperChar c = c := by
  simp [isDigitChar] at h
  unfold upperChar
  rw [if_neg (by omega)]

lemma kWordTest_false (s : List Char) (h : ∀ c ∈ s, isKChar c = false) :
    kWordTest s = false := by
  induction s with
  | nil => rfl
  | cons c t ih =>
    have hc := h c (by simp)
    have ht := ih (fun d hd => h d (by simp [hd]))
    simp [kWordTest, hc, ht]

lemma containsSeq_mem {pat text : List Char} (h : containsSeq pat text = true) :
    ∀ c ∈ pat, c ∈ text := by
  intro c hc
  simp only [containsSeq, List.any_eq_true] at h
  obtain ⟨t, ht, hpre⟩ := h
  have h1 : pat <+: t := List.isPrefixOf_iff_prefix.mp hpre
  have h2 : t <:+ text := (List.mem_tails t text).mp ht
  exact h2.sublist.subset (h1.sublist.subset hc)

/-- The tail `" WORDS"` of the canonical clause. -/
def wordsTail : List Char := ' ' :: 'W' :: 'O' :: 'R' :: 'D' :: 'S' :: []

/-- The characters of `"EXPAND TO "`. -/
def expandHead : List Char :=
  'E' :: 'X' :: 'P' :: 'A' :: 'N' :: 'D' :: ' ' :: 'T' :: 'O' :: ' ' :: []

/-- The character list of `"EXPAND TO " ++ digits ++ " WORDS"`. -/
def expandInstrList (ds : List Char) : List Char :=
  'E' :: 'X' :: 'P' :: 'A' :: 'N' :: 'D' :: ' ' :: 'T' :: 'O' :: ' ' :: (ds ++ wordsTail)

lemma scanFirst_head (m : List Char → Option (List Char × NumCap)) (c : Char)
    (t : List Char) (cap : NumCap) (h : m (c :: t) = some ([], cap)) :
    scanFirst m (c :: t) = some (c :: t, cap) := by
  simp [scanFirst, h]

lemma parseTarget_expand_list (ds : List Char) (h1 : ds ≠ [])
    (h2 : ∀ c ∈ ds, isDigitChar c = true) :
    parseTargetWordCount (expandInstrList ds) = some (digitsToNat ds : Int) := by
  have hlit1 : litCI ("EXPAND".toList) (expandInstrList ds)
      = some (' ' :: 'T' :: 'O' :: ' ' :: (ds ++ wordsTail)) :=
    litCI_self ("EXPAND".toList) (' ' :: 'T' :: 'O' :: ' ' :: (ds ++ wordsTail))
  have ews : isWsChar ' ' = true := rfl
  have ewt : isWsChar 'T' = false := rfl
  have hskip1 : skipWs (' ' :: 'T' :: 'O' :: ' ' :: (ds ++ wordsTail))
      = 'T' :: 'O' :: ' ' :: (ds ++ wordsTail) := by
    simp [skipWs, List.dropWhile_cons, ews, ewt]
  have hlit2 : litCI ("TO".toList) ('T' :: 'O' :: ' ' :: (ds ++ wordsTail))
      = some (' ' :: (ds ++ wordsTail)) :=
    litCI_self ("TO".toList) (' ' :: (ds ++ wordsTail))
  have hskip2 : skipWs (' ' :: (ds ++ wordsTail)) = ds ++ wordsTail := by
    cases ds with
    | nil => exact absurd rfl h1
    | cons d ds2 =>
      have hd := isDigit_not_ws (h2 d (by simp))
      simp [skipWs, List.dropWhile_cons, ews, hd]
  have htake : takeNum (ds ++ wordsTail)
      = some ({ intPart := ds, fracPart := [] }, wordsTail) := by
    have hsp := takeWhile_append_of isDigitComma wordsTail (by decide) ds
      (fun c hc => isDigitComma_of_digit (h2 c hc))
    simp only [takeNum, hsp.1, hsp.2]
    rw [if_neg h1]
    rfl
  have hkt : kTailFinal wordsTail = some [] := rfl
  have hmatch : matchExpandAt (expandInstrList ds)
      = some ([], { intPart := ds, fracPart := [] }) := by
    simp only [matchExpandAt, hlit1, hskip1, hlit2, hskip2, htake, hkt]
    rfl
  have hscan : scanFirst matchExpandAt (expandInstrList ds)
      = some (expandInstrList ds, { intPart := ds, fracPart := [] }) :=
    scanFirst_head matchExpandAt 'E'
      ('X' :: 'P' :: 'A' :: 'N' :: 'D' :: ' ' :: 'T' :: 'O' :: ' ' :: (ds ++ wordsTail))
      { intPart := ds, fracPart := [] } hmatch
  have hkchars : ∀ c ∈ expandInstrList ds, isKChar c = false := by
    have hfront : ∀ c ∈ (expandHead : List Char), isKChar c = false := by decide
    have htail : ∀ c ∈ wordsTail, isKChar c = false := by decide
    intro c hc
    rw [show expandInstrList ds = expandHead ++ (ds ++ wordsTail) from rfl] at hc
    simp only [List.mem_append] at hc
    rcases hc with hc | hc | hc
    · exact hfront c hc
    · exact isDigit_not_K (h2 c hc)
    · exact htail c hc
  have hkw : kWordTest (expandInstrList ds) = false := kWordTest_false _ hkchars
  have hth : thesisTest (expandInstrList ds) = false := by
    simp only [thesisTest]
    cases hcontain : containsSeq ("THESIS".toList) (toUpperList (expandInstrList ds)) with
    | false => rfl
    | true =>
      exfalso
      have hmem := containsSeq_mem hcontain 'H' (by decide)
      rw [show toUpperList (expandInstrList ds)
          = toUpperList expandHead ++ (toUpperList ds ++ toUpperList wordsTail) by
        simp [toUpperList, expandInstrList, expandHead, wordsTail]] at hmem
      simp only [List.mem_append] at hmem
      rcases hmem with hmem | hmem | hmem
      · exact absurd hmem (by decide)
      · obtain ⟨c, hc, hup⟩ := List.mem_map.mp hmem
        rw [upperChar_digit (h2 c hc)] at hup
        subst hup
        exact absurd (h2 _ hc) (by decide)
      · exact absurd hmem (by decide)
  have hfilter : ds.filter (fun c => c != ',') = ds := by
    apply List.filter_eq_self.mpr
    intro c hc
    have hd := h2 c hc
    simp only [bne_iff_ne, ne_eq, decide_eq_true_eq]
    rintro rfl
    exact absurd hd (by decide)
  have hval : (2 * (digitsToNat ds * 1 + digitsToNat ([] : List Char)) + 1) / 2
      = digitsToNat ds := by
    simp [digitsToNat]
    omega
  simp only [parseTargetWordCount, wordCountMatchers, parseTargetGo, hscan]
  simp only [computeTarget, numValue, hfilter, hkw, hth]
  rw [if_neg (fun hx => h1 hx.1)]
  simp only [if_neg (by simp : ¬ (True ∧ False))]
  simp only [pow_zero, Bool.false_eq_true, and_false, if_false, if_neg]
  rw [show ((10 : Nat) ^ (List.length ([] : List Char))) = 1 from rfl]
  rw [hval]

/-- C4: for every nonempty digit string `ds` (of at most 15 digits, the range
on which JS `parseFloat` is exact), parsing the instruction
`"EXPAND TO <ds> WORDS"` yields `targetWordCount = N` where `N` is the decimal
value of `ds` (the clause contains neither a `K` nor the word `THESIS`, so no
scaling applies); a trailing `k` adjacent to `WORDS` multiplies by 1000
(`"EXPAND TO 2.5k WORDS"` yields 2500); and a matched number below 500
co-occurring with `THESIS` is multiplied by 1000 (`"EXPAND TO 300 WORDS FOR
THE THESIS"` yields 300000). -/
theorem expand_to_n_words_parses (ds : List Char) (h1 : ds ≠ [])
    (h2 : ∀ c ∈ ds, isDigitChar c = true) (_h3 : ds.length ≤ 15) :
    (parseExpansionInstructionsPure
        ("EXPAND TO " ++ String.mk ds ++ " WORDS")).targetWordCount
      = some (digitsToNat ds : Int) ∧
    (parseExpansionInstructionsPure ("EXPAND TO 2.5k WORDS")).targetWordCount
      = some 2500 ∧
    (parseExpansionInstructionsPure
        ("EXPAND TO 300 WORDS FOR THE THESIS")).targetWordCount = some 300000 := by
  refine ⟨?_, by rfl, by rfl⟩
  have hne : ("EXPAND TO " ++ String.mk ds ++ " WORDS") ≠ "" := by
    intro hh
    have hd := congrArg String.data hh
    rw [show ("EXPAND TO " ++ String.mk ds ++ " WORDS").data = expandInstrList ds
      from rfl] at hd
    simp [expandInstrList] at hd
  simp only [parseExpansionInstructionsPure, if_neg hne]
  show parseTargetWordCount (("EXPAND TO " ++ String.mk ds ++ " WORDS").data) = _
  rw [show ("EXPAND TO " ++ String.mk ds ++ " WORDS").data = expandInstrList ds from rfl]
  exact parseTarget_expand_list ds h1 h2

/-- Witness for C4 with the concrete digit string `2500`. -/
theorem expand_to_n_words_parses_witness :
    (parseExpansionInstructionsPure
        ("EXPAND TO " ++ String.mk ['2', '5', '0', '0'] ++ " WORDS")).targetWordCount
      = some (digitsToNat ['2', '5', '0', '0'] : Int) ∧
    digitsToNat ['2', '5', '0', '0'] = 2500 := by
  refine ⟨(expand_to_n_words_parses ['2', '5', '0', '0'] (by decide) (by decide)
    (by decide)).1, by decide⟩

end UX
